import Mathlib

/-! gotabcmd: session layer over the `tabcmd` command line program

A shallow embedding of `tableau.go` (the session manager and its singleton)
and of `tabcmd.go` (the process executor), together with the test doubles
`fakeRunner` of `tableau_test.go` and `TestHelperProcess` of `tabcmd_test.go`.

Conventions of the embedding

* A Go `string` is a Lean `String`.  `strings.HasPrefix` and
  `strings.Replace` compare bytes; the patterns used here are ASCII, for which
  a byte match in UTF-8 text is a character match.
* A Go `error` value is an `Option GoError`; `none` is `nil`.
* The `TabRunner` interface value held in `Tableau.e` is a record carrying
  the behaviour of its `run` method (`step`), the private state of the
  implementation, and the list of invocations made through it so far
  (`requested`, as in `fakeRunner.requested`, here with the result of each
  invocation recorded too).
* Methods with a pointer receiver return the updated receiver next to their
  Go results.
* `log.Print`/`log.Printf` calls write to the process log only and are left
  out.
* A `time.Duration` is an `Int` (nanoseconds); no arithmetic is done on
  durations, so the 64-bit range plays no role.
* Package-level variables and the heap of sessions are an explicit `Pkg`
  record; a `*Tableau` is a position in that heap.
-/

namespace Gotabcmd

/-! ## Errors -/

/-- Go `error` values that can reach a caller: the three package sentinels and
whatever a runner reports. -/
inductive GoError where
  | alreadyLoggedIn
  | notLoggedIn
  | emptyDs
  | external (msg : String)
deriving DecidableEq, Repr

/-- `ErrAlreadyLoggedIn = errors.New("already logged in")`. -/
def ErrAlreadyLoggedIn : GoError := GoError.alreadyLoggedIn

/-- `ErrNotLoggedIn = errors.New("not logged in")`. -/
def ErrNotLoggedIn : GoError := GoError.notLoggedIn

/-- `ErrEmptyDs = errors.New("empty dataset, nothing to do")`. -/
def ErrEmptyDs : GoError := GoError.emptyDs

/-! ## Actions and the server list -/

def actLogin : String := "login"

def actLogout : String := "logout"

def actRefreshExtracts : String := "refreshextracts"

/-- `ServerList`: the servers tried by `LoginOnline`, in order. -/
def ServerList : List String :=
  [ "dub01.online.tableau.com",
    "eu-west-1a.online.tableau.com",
    "10ax.online.tableau.com",
    "10ay.online.tableau.com",
    "10az.online.tableau.com",
    "us-east-1.online.tableau.com",
    "us-west-2b.online.tableau.com" ]

/-! ## The runner interface -/

/-- One call of `run` as seen from outside: what was asked and what came back. -/
structure Invocation where
  action : String
  args : List String
  out : String
  err : Option GoError
deriving DecidableEq, Repr

/-- `TabRunner` interface value: `step` is the behaviour of
`run(action, args...) (out, err)` on the implementation state, `state` the
current implementation state, `requested` the invocations made so far. -/
structure TabRunner (σ : Type) where
  step : σ → String → List String → (String × Option GoError) × σ
  state : σ
  requested : List Invocation

/-- `e.run(action, args...)`: one invocation of the runner. -/
def TabRunner.run {σ : Type} (e : TabRunner σ) (action : String) (args : List String) :
    (String × Option GoError) × TabRunner σ :=
  let r := e.step e.state action args
  (r.1, { step := e.step, state := r.2,
          requested := e.requested ++ [⟨action, args, r.1.1, r.1.2⟩] })

/-- `fakeRunner` of `tableau_test.go`: returns `returnOut` (or `"*"` when that
is empty) together with `returnError`. -/
def fakeRunner (returnOut : String) (returnError : Option GoError) : TabRunner Unit where
  step := fun _ _ _ =>
    let retval := if returnOut ≠ "" then returnOut else "*"
    ((retval, returnError), ())
  state := ()
  requested := []

/-! ## String helpers from the Go standard library -/

/-- `strings.HasPrefix(s, pfx)`. -/
def HasPrefix (s pfx : String) : Bool := pfx.data.isPrefixOf s.data

/-- Replace the first occurrence of `old` in a character list by `new`; the
list is returned as it is when `old` does not occur. -/
def replaceFirst (old new : List Char) : List Char → List Char
  | [] => if old.isPrefixOf [] then new else []
  | c :: cs =>
    if old.isPrefixOf (c :: cs) then new ++ (c :: cs).drop old.length
    else c :: replaceFirst old new cs

/-- `strings.Replace(s, old, new, 1)`. -/
def ReplaceOnce (s old new : String) : String :=
  if old = new then s else ⟨replaceFirst old.data new.data s.data⟩

/-! ## The session -/

/-- `Tableau` keeps the current connection parameters. -/
structure Tableau (σ : Type) where
  loggedIn : Bool
  user : String
  server : String
  e : TabRunner σ

/-- `addHTTPS` adds the `https://` prefix if it is not present. -/
def addHTTPS (uri : String) : String :=
  let http := "http://"
  let securehttp := "https://"
  if HasPrefix uri http then ReplaceOnce uri http securehttp
  else if !HasPrefix uri securehttp then securehttp ++ uri
  else uri

/-- `(*Tableau).login`. -/
def Tableau.login {σ : Type} (t : Tableau σ) (server username password : String) :
    (String × Option GoError) × Tableau σ :=
  if t.loggedIn then (("", some ErrAlreadyLoggedIn), t)
  else
    let server := addHTTPS server
    let t : Tableau σ := { loggedIn := t.loggedIn, user := username, server := server, e := t.e }
    let r := t.e.run actLogin ["-s", server, "-u", username, "-p", password]
    (r.1, { loggedIn := r.1.2.isNone, user := t.user, server := t.server, e := r.2 })

/-- `(*Tableau).Login`. -/
def Tableau.Login {σ : Type} (t : Tableau σ) (server username password : String) :
    (String × Option GoError) × Tableau σ :=
  t.login server username password

/-- The `for _, srv := range ...` loop of `LoginOnline`; `buf` and `err` are the
local variables of the function at loop entry. -/
def loginOnlineLoop {σ : Type} (username password : String) :
    List String → Tableau σ → String → Option GoError → (String × Option GoError) × Tableau σ
  | [], t, buf, err => ((buf, err), t)
  | srv :: rest, t, buf, _ =>
    let r := t.login srv username password
    let buf := buf ++ r.1.1
    match r.1.2 with
    | none => ((buf, none), r.2)
    | some err => loginOnlineLoop username password rest r.2 buf (some err)

/-- `(*Tableau).LoginOnline`. -/
def Tableau.LoginOnline {σ : Type} (t : Tableau σ) (username password : String) :
    (String × Option GoError) × Tableau σ :=
  loginOnlineLoop username password ServerList t "" none

/-- `(*Tableau).Logout`. -/
def Tableau.Logout {σ : Type} (t : Tableau σ) : (String × Option GoError) × Tableau σ :=
  if !t.loggedIn then (("", none), t)
  else
    let r := t.e.run actLogout []
    match r.1.2 with
    | some err => ((r.1.1, some err), { loggedIn := t.loggedIn, user := t.user, server := t.server, e := r.2 })
    | none => ((r.1.1, none), { loggedIn := false, user := t.user, server := t.server, e := r.2 })

/-- The `for _, ds := range datasets` loop of `RefreshExtracts`; `buf` is the
buffer at loop entry. -/
def refreshExtractsLoop {σ : Type} :
    List String → Tableau σ → String → (String × Option GoError) × Tableau σ
  | [], t, buf => ((buf, none), t)
  | ds :: rest, t, buf =>
    let r := t.e.run actRefreshExtracts ["--datasource", ds]
    let t : Tableau σ := { loggedIn := t.loggedIn, user := t.user, server := t.server, e := r.2 }
    let buf := buf ++ r.1.1
    match r.1.2 with
    | some err => ((buf, some err), t)
    | none => refreshExtractsLoop rest t buf

/-- `(*Tableau).RefreshExtracts`. -/
def Tableau.RefreshExtracts {σ : Type} (t : Tableau σ) (datasets : List String) :
    (String × Option GoError) × Tableau σ :=
  if !t.loggedIn then (("", some ErrNotLoggedIn), t)
  else if datasets.length = 0 then (("", some ErrEmptyDs), t)
  else refreshExtractsLoop datasets t ""

/-! ## Reference execution of a runner

`runCalls step st calls` feeds the calls to the runner one after the other,
whatever they return, and lists the resulting invocations.  It is the yardstick
against which the loops of the session are measured. -/

/-- Run the runner on every call of the list, in order. -/
def runCalls {σ : Type} (step : σ → String → List String → (String × Option GoError) × σ) :
    σ → List (String × List String) → List Invocation × σ
  | st, [] => ([], st)
  | st, c :: cs =>
    let r := step st c.1 c.2
    let rest := runCalls step r.2 cs
    (⟨c.1, c.2, r.1.1, r.1.2⟩ :: rest.1, rest.2)

/-- The call `login` makes for a server that is already normalised. -/
def loginCall (username password server : String) : String × List String :=
  ("login", ["-s", server, "-u", username, "-p", password])

/-- The call `RefreshExtracts` makes for one dataset. -/
def refreshCall (ds : String) : String × List String :=
  ("refreshextracts", ["--datasource", ds])

/-- The calls one `RefreshExtracts` would make if no dataset failed. -/
def refreshCalls (datasets : List String) : List (String × List String) :=
  datasets.map refreshCall

/-- The calls one `LoginOnline` would make if no server accepted the login. -/
def onlineCalls (username password : String) : List (String × List String) :=
  ServerList.map (fun srv => loginCall username password ("https://" ++ srv))

/-- Concatenation of the outputs of a list of invocations, in list order. -/
def outputs : List Invocation → String
  | [] => ""
  | inv :: rest => inv.out ++ outputs rest

/-! ## Test sessions -/

/-- A fresh session over `fakeRunner`, as built by the tests. -/
def fakeSession (loggedIn : Bool) (returnOut : String) (returnError : Option GoError) :
    Tableau Unit :=
  { loggedIn := loggedIn, user := "", server := "", e := fakeRunner returnOut returnError }

/-! ## The process executor (`tabcmd.go`)

`exec.CommandContext` and `(*exec.Cmd).Run` belong to the Go standard library
and to the operating system.  A command is modelled by what `run` can observe
of it: the program name and argument vector it was created for, and the
outcome of running it (what it wrote to the two buffers and the error `Run`
reported). -/

/-- `time.Duration`: a number of nanoseconds. -/
abbrev Duration := Int

/-- `time.Second`. -/
def Second : Duration := 1000000000

/-- `time.Hour`. -/
def Hour : Duration := 3600 * Second

/-- Name of the tabcmd executable. -/
def cTabcmd : String := "tabcmd"

/-- `CCommandTimeout` is the default command execution timeout. -/
def CCommandTimeout : Duration := 15 * Second

/-- What running a process yields: captured standard output, captured standard
error, and the error reported by `Run` (`none` for exit code zero). -/
structure ProcOutcome where
  stdout : String
  stderr : String
  err : Option GoError
deriving DecidableEq, Repr

/-- An `*exec.Cmd` as far as `run` uses it. -/
structure Cmd where
  name : String
  args : List String
  Run : ProcOutcome
deriving DecidableEq, Repr

/-- `tabcmd` is a wrapper around "tabcmd"; the first argument of
`commandContext` is the timeout of the context it is given. -/
structure tabcmd where
  timeout : Duration
  commandContext : Duration → String → List String → Cmd

/-- `newTabcmd` returns a new executor; `execCommandContext` stands for
`exec.CommandContext`. -/
def newTabcmd (execCommandContext : Duration → String → List String → Cmd)
    (commandTimeout : Duration) : tabcmd :=
  let commandTimeout := if commandTimeout = 0 then CCommandTimeout else commandTimeout
  { timeout := commandTimeout, commandContext := execCommandContext }

/-- `(*tabcmd).run`: output is stdout if no error occurred and stderr of the
program otherwise. -/
def tabcmd.run (t : tabcmd) (action : String) (args : List String) : String × Option GoError :=
  let ctx := t.timeout
  let cmd := t.commandContext ctx cTabcmd ([action] ++ args)
  match cmd.Run.err with
  | some err => (cmd.Run.stderr, some err)
  | none => (cmd.Run.stdout, none)

/-- The `TabRunner` interface value made of a `*tabcmd`. -/
def tabcmdRunner (tc : tabcmd) : TabRunner tabcmd where
  step := fun st action args => (st.run action args, st)
  state := tc
  requested := []

/-- `fmt.Sprintf("%v", args)` for a slice of strings: the elements separated by
blanks, in square brackets. -/
def sprintSlice (args : List String) : String :=
  "[" ++ " ".intercalate args ++ "]"

/-- `TestHelperProcess` of `tabcmd_test.go`, run with the environment variable
`GO_WANT_HELPER_PROCESS=1` and the given `os.Args`.  A non-zero exit code
`n` is what `Run` reports as the error `exit status n`.  With fewer than two
arguments after `--` the index expression panics and the deferred
`os.Exit(0)` ends the process. -/
def TestHelperProcess (osArgs : List String) : ProcOutcome :=
  match (osArgs.dropWhile (fun a => a ≠ "--")).drop 1 with
  | [] => ⟨"", "No command\n", some (GoError.external "exit status 2")⟩
  | [_] => ⟨"", "", none⟩
  | cmd :: action :: args =>
    if cmd ≠ cTabcmd then
      ⟨"", "Invalid tabcmd executable", some (GoError.external "exit status 1")⟩
    else if action = "succeed" then
      ⟨"Success: " ++ sprintSlice args, "", none⟩
    else if action = "fail" then
      ⟨"", "Failure: " ++ sprintSlice args, some (GoError.external "exit status 1")⟩
    else
      ⟨"", "Unknown command \"" ++ cmd ++ "\"\n", some (GoError.external "exit status 2")⟩

/-- `helperCommandContext` of `tabcmd_test.go` for a context that is not nil:
the command is made by `exec.CommandContext` (here `execCommandContext`) with
the context it was given, for the test binary `self` (`os.Args[0]`). -/
def helperCommandContext (execCommandContext : Duration → String → List String → Cmd)
    (self : String) (ctx : Duration) (name : String) (args : List String) : Cmd :=
  let cs := ["-test.run=TestHelperProcess", "--"] ++ ([name] ++ args)
  execCommandContext ctx self cs

/-- What `exec.CommandContext` gives during the tests, where the program run is
the test binary: the helper process needs the time `needs` from the creation
of the context to its exit.  When the timeout of the context is shorter, the
deadline passes first: `Run` reports the error `interrupted`, and nothing has
been captured, because the helper writes its output as its last action.
Otherwise the helper process runs to its end. -/
def testExec (needs : Duration) (interrupted : GoError) (ctx : Duration) (name : String)
    (args : List String) : Cmd :=
  { name := name, args := args,
    Run := if ctx < needs then ⟨"", "", some interrupted⟩
           else TestHelperProcess ([name] ++ args) }

/-- The `commandContext` of the tests: `helperCommandContext` over a test
binary whose helper process needs one second. -/
def testCommandContext : Duration → String → List String → Cmd :=
  helperCommandContext (testExec Second (GoError.external "context deadline exceeded"))
    "gotabcmd.test"

/-! ## The singleton (`gTb`, `gOnce`, `NewTableau`)

The package-level state is explicit.  Sessions live in `heap`; a `*Tableau` is
`none` (the nil pointer) or the position of a session in `heap`. -/

/-- Package-level state: the allocated sessions, the variable `gTb`, and
whether `gOnce` has already run its function. -/
structure Pkg where
  heap : List (Tableau tabcmd)
  gTb : Option Nat
  gOnce : Bool

/-- Package state at program start: `gTb` is nil and `gOnce` has not run. -/
def Pkg.init : Pkg := { heap := [], gTb := none, gOnce := false }

/-- `NewTableau` returns the local Tableau instance; `execCommandContext`
stands for `exec.CommandContext`. -/
def NewTableau (execCommandContext : Duration → String → List String → Cmd)
    (commandTimeout : Duration) (p : Pkg) : Option Nat × Pkg :=
  let p : Pkg :=
    if p.gOnce then p
    else
      { heap := p.heap ++
          [{ loggedIn := false, user := "", server := "",
             e := tabcmdRunner (newTabcmd execCommandContext commandTimeout) }],
        gTb := some p.heap.length,
        gOnce := true }
  (p.gTb, p)

/-- Read the session a pointer refers to. -/
def Pkg.load (p : Pkg) (ptr : Option Nat) : Option (Tableau tabcmd) :=
  match ptr with
  | none => none
  | some a => p.heap[a]?

/-- The assignment `ptr.user = v`. -/
def Pkg.setUser (p : Pkg) (ptr : Option Nat) (v : String) : Pkg :=
  match ptr with
  | none => p
  | some a =>
    match p.heap[a]? with
    | none => p
    | some t =>
      { heap := p.heap.set a { loggedIn := t.loggedIn, user := v, server := t.server, e := t.e },
        gTb := p.gTb, gOnce := p.gOnce }

/-- The assignment `ptr.server = v`. -/
def Pkg.setServer (p : Pkg) (ptr : Option Nat) (v : String) : Pkg :=
  match ptr with
  | none => p
  | some a =>
    match p.heap[a]? with
    | none => p
    | some t =>
      { heap := p.heap.set a { loggedIn := t.loggedIn, user := t.user, server := v, e := t.e },
        gTb := p.gTb, gOnce := p.gOnce }

/-- What a client of the package can do with the singleton: ask for it again,
or assign a field through the handle it holds. -/
inductive PkgStep where
  | newTableau (commandTimeout : Duration)
  | setUser (v : String)
  | setServer (v : String)

/-- Run client steps; `h` is the handle the client holds, replaced by the
result of each `NewTableau`.  The handles returned by the calls of
`NewTableau` are listed in call order. -/
def runSteps (execCommandContext : Duration → String → List String → Cmd) :
    List PkgStep → Option Nat → Pkg → List (Option Nat) × Pkg
  | [], _, p => ([], p)
  | PkgStep.newTableau d :: rest, _, p =>
    let r := NewTableau execCommandContext d p
    let rr := runSteps execCommandContext rest r.1 r.2
    (r.1 :: rr.1, rr.2)
  | PkgStep.setUser v :: rest, h, p => runSteps execCommandContext rest h (p.setUser h v)
  | PkgStep.setServer v :: rest, h, p => runSteps execCommandContext rest h (p.setServer h v)

/-! ## Sequences of session operations -/

/-- A call of one of the four exported session operations. -/
inductive Op where
  | Login (server username password : String)
  | LoginOnline (username password : String)
  | Logout
  | RefreshExtracts (datasets : List String)

/-- Perform one operation on the session. -/
def Tableau.apply {σ : Type} (t : Tableau σ) : Op → (String × Option GoError) × Tableau σ
  | Op.Login server username password => t.Login server username password
  | Op.LoginOnline username password => t.LoginOnline username password
  | Op.Logout => t.Logout
  | Op.RefreshExtracts datasets => t.RefreshExtracts datasets

/-- Perform the operations one after the other; the session afterwards. -/
def Tableau.applyAll {σ : Type} (t : Tableau σ) : List Op → Tableau σ
  | [] => t
  | op :: rest => (t.apply op).2.applyAll rest

/-- The runner invocations made during one operation: what the operation added
to the list of invocations. -/
def invocationsOf {σ : Type} (t : Tableau σ) (op : Op) : List Invocation :=
  (t.apply op).2.e.requested.drop t.e.requested.length

/-- The runner invocations made since the session `t0` by the operations `ops`. -/
def invocationsSince {σ : Type} (t0 : Tableau σ) (ops : List Op) : List Invocation :=
  (t0.applyAll ops).e.requested.drop t0.e.requested.length

/-- Login state after one invocation, as the invocation itself tells: a
successful `login` logs in, a successful `logout` logs out, anything else
changes nothing. -/
def nextLoggedIn (s : Bool) (inv : Invocation) : Bool :=
  if inv.action = "login" ∧ inv.err = none then true
  else if inv.action = "logout" ∧ inv.err = none then false
  else s

/-- Login state after a list of invocations, starting from `s`. -/
def traceLoggedIn (s : Bool) : List Invocation → Bool
  | [] => s
  | inv :: rest => traceLoggedIn (nextLoggedIn s inv) rest

/-- Whether an invocation is in order in login state `s`: `login` only when
logged out, `logout` and `refreshextracts` only when logged in. -/
def allowedIn (s : Bool) (inv : Invocation) : Bool :=
  if inv.action = "login" then !s
  else if inv.action = "logout" ∨ inv.action = "refreshextracts" then s
  else true

/-- Whether every invocation of the list is in order in the login state in
which it is made, starting from `s`. -/
def guarded (s : Bool) : List Invocation → Bool
  | [] => true
  | inv :: rest => allowedIn s inv && guarded (nextLoggedIn s inv) rest

/-- The trace contains a successful `login` invocation with no successful
`logout` invocation after it. -/
def hasOpenLogin (trace : List Invocation) : Prop :=
  ∃ pre inv post, trace = pre ++ inv :: post ∧ inv.action = "login" ∧ inv.err = none ∧
    ∀ x ∈ post, ¬ (x.action = "logout" ∧ x.err = none)

/-- A runner whose first invocation fails and whose later invocations succeed
(the state counts the invocations); it stands for a first server that cannot
be reached. -/
def failFirstRunner : TabRunner Nat where
  step := fun n _ _ =>
    if n = 0 then (("*", some (GoError.external "login error")), n + 1)
    else (("*", none), n + 1)
  state := 0
  requested := []

/-- A logged-out session over `failFirstRunner`. -/
def failFirstSession : Tableau Nat :=
  { loggedIn := false, user := "", server := "", e := failFirstRunner }

/-! ## Helper lemmas -/

theorem replaceFirst_of_isPrefixOf (old new s : List Char) (h : old.isPrefixOf s = true) :
    replaceFirst old new s = new ++ s.drop old.length := by
  cases s with
  | nil =>
    cases old with
    | nil => simp [replaceFirst]
    | cons a as => simp at h
  | cons c cs => simp [replaceFirst, h]

theorem HasPrefix_iff (s pfx : String) :
    HasPrefix s pfx = true ↔ ∃ rest : String, s = pfx ++ rest := by
  unfold HasPrefix
  rw [List.isPrefixOf_iff_prefix]
  constructor
  · rintro ⟨r, hr⟩
    exact ⟨⟨r⟩, String.ext (by simp [hr])⟩
  · rintro ⟨r, rfl⟩
    exact ⟨r.data, by simp⟩

theorem HasPrefix_append (pfx rest : String) : HasPrefix (pfx ++ rest) pfx = true :=
  (HasPrefix_iff _ _).2 ⟨rest, rfl⟩

theorem addHTTPS_http_append (rest : String) :
    addHTTPS ("http://" ++ rest) = "https://" ++ rest := by
  have h : HasPrefix ("http://" ++ rest) "http://" = true := HasPrefix_append _ _
  have h2 : ("http://".data).isPrefixOf ("http://" ++ rest).data = true := h
  simp only [addHTTPS, h, if_true, ReplaceOnce]
  rw [if_neg (by decide), replaceFirst_of_isPrefixOf _ _ _ h2]
  apply String.ext
  simp

/-! ### The reference execution -/

theorem runCalls_length {σ : Type}
    (step : σ → String → List String → (String × Option GoError) × σ)
    (calls : List (String × List String)) :
    ∀ st : σ, (runCalls step st calls).1.length = calls.length := by
  induction calls with
  | nil => intro st; rfl
  | cons c cs ih => intro st; simp [runCalls, ih]

theorem runCalls_calls {σ : Type}
    (step : σ → String → List String → (String × Option GoError) × σ)
    (calls : List (String × List String)) :
    ∀ st : σ, (runCalls step st calls).1.map (fun inv => (inv.action, inv.args)) = calls := by
  induction calls with
  | nil => intro st; rfl
  | cons c cs ih => intro st; simp [runCalls, ih]

theorem runCalls_take_length {σ : Type}
    (step : σ → String → List String → (String × Option GoError) × σ)
    (calls : List (String × List String)) (st : σ) (i : Nat) (inv : Invocation)
    (h : (runCalls step st calls).1[i]? = some inv) :
    ((runCalls step st calls).1.take (i + 1)).length = i + 1 := by
  have hi : i < (runCalls step st calls).1.length := by
    rcases Nat.lt_or_ge i (runCalls step st calls).1.length with hlt | hge
    · exact hlt
    · rw [List.getElem?_eq_none hge] at h
      cases h
  rw [List.length_take]
  omega

/-! ### The loop of `RefreshExtracts` -/

theorem refreshExtractsLoop_all_ok {σ : Type} (datasets : List String) :
    ∀ (t : Tableau σ) (buf : String),
      (∀ inv ∈ (runCalls t.e.step t.e.state (refreshCalls datasets)).1, inv.err = none) →
      refreshExtractsLoop datasets t buf =
        ((buf ++ outputs (runCalls t.e.step t.e.state (refreshCalls datasets)).1, none),
          { loggedIn := t.loggedIn, user := t.user, server := t.server,
            e := { step := t.e.step,
                   state := (runCalls t.e.step t.e.state (refreshCalls datasets)).2,
                   requested := t.e.requested ++
                     (runCalls t.e.step t.e.state (refreshCalls datasets)).1 } }) := by
  induction datasets with
  | nil =>
    intro t buf _
    simp [refreshExtractsLoop, refreshCalls, runCalls, outputs]
  | cons ds rest ih =>
    intro t buf hok
    have h0 : (t.e.step t.e.state "refreshextracts" ["--datasource", ds]).1.2 = none := by
      have := hok _ (List.mem_cons_self _ _)
      simpa [refreshCall] using this
    have hrest : ∀ inv ∈ (runCalls t.e.step
        (t.e.step t.e.state "refreshextracts" ["--datasource", ds]).2 (refreshCalls rest)).1,
        inv.err = none := by
      intro inv hinv
      apply hok
      simp only [refreshCalls, List.map_cons, runCalls, refreshCall]
      exact List.mem_cons_of_mem _ hinv
    have hih := ih
      { loggedIn := t.loggedIn, user := t.user, server := t.server,
        e := (t.e.run actRefreshExtracts ["--datasource", ds]).2 }
      (buf ++ (t.e.run actRefreshExtracts ["--datasource", ds]).1.1)
      (by simpa [TabRunner.run, actRefreshExtracts] using hrest)
    simp only [TabRunner.run, actRefreshExtracts, h0] at hih
    simp only [refreshExtractsLoop, TabRunner.run, actRefreshExtracts, h0, hih]
    simp [refreshCalls, runCalls, refreshCall, outputs, String.append_assoc, h0]

theorem refreshExtractsLoop_first_failure {σ : Type} (datasets : List String) :
    ∀ (t : Tableau σ) (buf : String) (i : Nat) (inv : Invocation),
      (runCalls t.e.step t.e.state (refreshCalls datasets)).1[i]? = some inv →
      inv.err ≠ none →
      (∀ x ∈ (runCalls t.e.step t.e.state (refreshCalls datasets)).1.take i, x.err = none) →
      (refreshExtractsLoop datasets t buf).1 =
        (buf ++ outputs ((runCalls t.e.step t.e.state (refreshCalls datasets)).1.take (i + 1)),
          inv.err) ∧
      (refreshExtractsLoop datasets t buf).2.e.requested =
        t.e.requested ++ (runCalls t.e.step t.e.state (refreshCalls datasets)).1.take (i + 1) := by
  induction datasets with
  | nil =>
    intro t buf i inv h
    simp [refreshCalls, runCalls] at h
  | cons ds rest ih =>
    intro t buf i inv hget hfail hok
    cases i with
    | zero =>
      have hinv : inv = ⟨"refreshextracts", ["--datasource", ds],
          (t.e.step t.e.state "refreshextracts" ["--datasource", ds]).1.1,
          (t.e.step t.e.state "refreshextracts" ["--datasource", ds]).1.2⟩ := by
        simpa [refreshCalls, runCalls, refreshCall] using hget.symm
      subst hinv
      obtain ⟨err, herr⟩ := Option.ne_none_iff_exists'.1 hfail
      simp only at herr
      simp [refreshExtractsLoop, TabRunner.run, actRefreshExtracts, herr, refreshCalls,
        runCalls, refreshCall, outputs]
    | succ j =>
      have h0 : (t.e.step t.e.state "refreshextracts" ["--datasource", ds]).1.2 = none := by
        have := hok ⟨"refreshextracts", ["--datasource", ds],
          (t.e.step t.e.state "refreshextracts" ["--datasource", ds]).1.1,
          (t.e.step t.e.state "refreshextracts" ["--datasource", ds]).1.2⟩
          (by simp [refreshCalls, runCalls, refreshCall])
        simpa using this
      have hih := ih
        { loggedIn := t.loggedIn, user := t.user, server := t.server,
          e := (t.e.run actRefreshExtracts ["--datasource", ds]).2 }
        (buf ++ (t.e.run actRefreshExtracts ["--datasource", ds]).1.1) j inv
        (by simpa [TabRunner.run, actRefreshExtracts, refreshCalls, runCalls, refreshCall]
              using hget)
        hfail
        (by
          intro x hx
          apply hok
          simp only [refreshCalls, List.map_cons, runCalls, refreshCall, List.take_succ_cons]
          exact List.mem_cons_of_mem _
            (by simpa [TabRunner.run, actRefreshExtracts, refreshCalls] using hx))
      simp only [TabRunner.run, actRefreshExtracts, h0] at hih
      simp only [refreshExtractsLoop, TabRunner.run, actRefreshExtracts, h0]
      rw [hih.1, hih.2]
      simp [refreshCalls, runCalls, refreshCall, outputs, String.append_assoc, h0]

theorem runCalls_all_ok {σ : Type}
    (step : σ → String → List String → (String × Option GoError) × σ)
    (hok : ∀ st action args, (step st action args).1.2 = none)
    (calls : List (String × List String)) :
    ∀ st : σ, ∀ inv ∈ (runCalls step st calls).1, inv.err = none := by
  induction calls with
  | nil => intro st inv h; simp [runCalls] at h
  | cons c cs ih =>
    intro st inv h
    simp only [runCalls, List.mem_cons] at h
    rcases h with h | h
    · rw [h]; exact hok _ _ _
    · exact ih _ _ h

/-! ### The loop of `LoginOnline` -/

theorem login_loggedOut {σ : Type} (t : Tableau σ) (srv username password : String)
    (h : t.loggedIn = false) :
    t.login srv username password =
      ((t.e.step t.e.state "login" ["-s", addHTTPS srv, "-u", username, "-p", password]).1,
        { loggedIn :=
            (t.e.step t.e.state "login"
              ["-s", addHTTPS srv, "-u", username, "-p", password]).1.2.isNone,
          user := username, server := addHTTPS srv,
          e := { step := t.e.step,
                 state := (t.e.step t.e.state "login"
                   ["-s", addHTTPS srv, "-u", username, "-p", password]).2,
                 requested := t.e.requested ++
                   [⟨"login", ["-s", addHTTPS srv, "-u", username, "-p", password],
                     (t.e.step t.e.state "login"
                       ["-s", addHTTPS srv, "-u", username, "-p", password]).1.1,
                     (t.e.step t.e.state "login"
                       ["-s", addHTTPS srv, "-u", username, "-p", password]).1.2⟩] } }) := by
  simp [Tableau.login, h, TabRunner.run, actLogin]

theorem runCalls_login_all_fail {σ : Type}
    (step : σ → String → List String → (String × Option GoError) × σ)
    (hfail : ∀ st args, (step st "login" args).1.2 ≠ none)
    (calls : List (String × List String)) (hcalls : ∀ c ∈ calls, c.1 = "login") :
    ∀ st : σ, ∀ inv ∈ (runCalls step st calls).1, inv.err ≠ none := by
  induction calls with
  | nil => intro st inv h; simp [runCalls] at h
  | cons c cs ih =>
    intro st inv h
    simp only [runCalls, List.mem_cons] at h
    rcases h with h | h
    · rw [h, hcalls c (List.mem_cons_self _ _)]
      exact hfail _ _
    · exact ih (fun c hc => hcalls c (List.mem_cons_of_mem _ hc)) _ _ h

theorem loginOnlineLoop_all_fail {σ : Type} (username password : String) (srvs : List String) :
    ∀ (t : Tableau σ) (buf : String) (err0 : Option GoError),
      t.loggedIn = false →
      (∀ x ∈ (runCalls t.e.step t.e.state
          (srvs.map (fun srv => loginCall username password (addHTTPS srv)))).1, x.err ≠ none) →
      (loginOnlineLoop username password srvs t buf err0).1 =
        (buf ++ outputs (runCalls t.e.step t.e.state
            (srvs.map (fun srv => loginCall username password (addHTTPS srv)))).1,
          ((runCalls t.e.step t.e.state
            (srvs.map (fun srv => loginCall username password (addHTTPS srv)))).1.getLast?.map
              Invocation.err).getD err0) ∧
      (loginOnlineLoop username password srvs t buf err0).2.e.requested =
        t.e.requested ++ (runCalls t.e.step t.e.state
          (srvs.map (fun srv => loginCall username password (addHTTPS srv)))).1 ∧
      (loginOnlineLoop username password srvs t buf err0).2.loggedIn = false := by
  induction srvs with
  | nil =>
    intro t buf err0 hout _
    simp [loginOnlineLoop, runCalls, outputs, hout]
  | cons srv rest ih =>
    intro t buf err0 hout hfail
    have h0 := hfail ⟨"login", ["-s", addHTTPS srv, "-u", username, "-p", password],
        (t.e.step t.e.state "login" ["-s", addHTTPS srv, "-u", username, "-p", password]).1.1,
        (t.e.step t.e.state "login" ["-s", addHTTPS srv, "-u", username, "-p", password]).1.2⟩
        (by simp [runCalls, loginCall])
    obtain ⟨err, herr⟩ := Option.ne_none_iff_exists'.1 h0
    simp only at herr
    have hih := ih (t.login srv username password).2
      (buf ++ (t.login srv username password).1.1) (some err)
      (by simp [login_loggedOut t srv username password hout, herr])
      (by
        intro x hx
        apply hfail
        simp only [List.map_cons, runCalls, loginCall]
        exact List.mem_cons_of_mem _
          (by simpa [login_loggedOut t srv username password hout, loginCall] using hx))
    simp only [login_loggedOut t srv username password hout, herr] at hih
    simp only [loginOnlineLoop, login_loggedOut t srv username password hout, herr]
    rw [hih.1, hih.2.1, hih.2.2]
    simp only [List.map_cons, runCalls, loginCall, outputs, herr, String.append_assoc,
      List.append_assoc, List.singleton_append, and_true, true_and, List.getLast?_cons,
      Prod.mk.injEq]
    cases (runCalls t.e.step
      (t.e.step t.e.state "login" ["-s", addHTTPS srv, "-u", username, "-p", password]).2
      (rest.map (fun srv => ("login", ["-s", addHTTPS srv, "-u", username, "-p", password])))).1.getLast? <;>
      simp

theorem loginOnlineLoop_first_success {σ : Type} (username password : String)
    (srvs : List String) :
    ∀ (t : Tableau σ) (buf : String) (err0 : Option GoError) (k : Nat) (inv : Invocation),
      t.loggedIn = false →
      (runCalls t.e.step t.e.state
        (srvs.map (fun srv => loginCall username password (addHTTPS srv)))).1[k]? = some inv →
      inv.err = none →
      (∀ x ∈ (runCalls t.e.step t.e.state
          (srvs.map (fun srv => loginCall username password (addHTTPS srv)))).1.take k,
        x.err ≠ none) →
      (loginOnlineLoop username password srvs t buf err0).1 =
        (buf ++ outputs ((runCalls t.e.step t.e.state
            (srvs.map (fun srv => loginCall username password (addHTTPS srv)))).1.take (k + 1)),
          none) ∧
      (loginOnlineLoop username password srvs t buf err0).2.e.requested =
        t.e.requested ++ (runCalls t.e.step t.e.state
          (srvs.map (fun srv => loginCall username password (addHTTPS srv)))).1.take (k + 1) ∧
      (loginOnlineLoop username password srvs t buf err0).2.loggedIn = true ∧
      (loginOnlineLoop username password srvs t buf err0).2.user = username ∧
      srvs[k]?.map addHTTPS =
        some (loginOnlineLoop username password srvs t buf err0).2.server := by
  induction srvs with
  | nil =>
    intro t buf err0 k inv _ h
    simp [runCalls] at h
  | cons srv rest ih =>
    intro t buf err0 k inv hout hget hsucc hfail
    cases k with
    | zero =>
      have hinv : inv = ⟨"login", ["-s", addHTTPS srv, "-u", username, "-p", password],
          (t.e.step t.e.state "login"
            ["-s", addHTTPS srv, "-u", username, "-p", password]).1.1,
          (t.e.step t.e.state "login"
            ["-s", addHTTPS srv, "-u", username, "-p", password]).1.2⟩ := by
        simpa [runCalls, loginCall] using hget.symm
      subst hinv
      simp only at hsucc
      simp [loginOnlineLoop, login_loggedOut t srv username password hout, hsucc, runCalls,
        loginCall, outputs]
    | succ j =>
      have h0 := hfail ⟨"login", ["-s", addHTTPS srv, "-u", username, "-p", password],
          (t.e.step t.e.state "login"
            ["-s", addHTTPS srv, "-u", username, "-p", password]).1.1,
          (t.e.step t.e.state "login"
            ["-s", addHTTPS srv, "-u", username, "-p", password]).1.2⟩
          (by simp [runCalls, loginCall])
      obtain ⟨err, herr⟩ := Option.ne_none_iff_exists'.1 h0
      simp only at herr
      have hih := ih (t.login srv username password).2
        (buf ++ (t.login srv username password).1.1) (some err) j inv
        (by simp [login_loggedOut t srv username password hout, herr])
        (by simpa [login_loggedOut t srv username password hout, runCalls, loginCall]
              using hget)
        hsucc
        (by
          intro x hx
          apply hfail
          simp only [List.map_cons, runCalls, loginCall, List.take_succ_cons]
          exact List.mem_cons_of_mem _
            (by simpa [login_loggedOut t srv username password hout, loginCall] using hx))
      simp only [login_loggedOut t srv username password hout, herr] at hih
      simp only [loginOnlineLoop, login_loggedOut t srv username password hout, herr]
      rw [hih.1, hih.2.1, hih.2.2.1, hih.2.2.2.1, ← hih.2.2.2.2]
      simp [runCalls, loginCall, outputs, herr, String.append_assoc]

theorem ServerList_addHTTPS :
    ServerList.map addHTTPS = ServerList.map (fun srv => "https://" ++ srv) := by
  decide

theorem onlineCalls_eq (username password : String) :
    ServerList.map (fun srv => loginCall username password (addHTTPS srv)) =
      onlineCalls username password := by
  have h : ServerList.map (fun srv => loginCall username password (addHTTPS srv)) =
      (ServerList.map addHTTPS).map (loginCall username password) := by
    rw [List.map_map]; rfl
  rw [h, ServerList_addHTTPS, List.map_map]
  rfl

/-! ## Theorems -/

/-- C1: `addHTTPS` normalisation.  A `uri` that starts with `http://` is
mapped to `https://` followed by the rest of `uri` after that leading
`http://` (so later occurrences of `http://` are kept), a `uri` that starts
with `https://` is returned unchanged, and every other `uri` gets `https://`
prepended. -/
theorem addHTTPS_spec (uri : String) :
    (HasPrefix uri "http://" = true →
      ∃ rest : String, uri = "http://" ++ rest ∧ addHTTPS uri = "https://" ++ rest) ∧
    (∀ rest : String, uri = "http://" ++ rest → addHTTPS uri = "https://" ++ rest) ∧
    (HasPrefix uri "https://" = true → addHTTPS uri = uri) ∧
    (HasPrefix uri "http://" = false → HasPrefix uri "https://" = false →
      addHTTPS uri = "https://" ++ uri) := by
  refine ⟨?_, ?_, ?_, ?_⟩
  · intro h
    obtain ⟨rest, rfl⟩ := (HasPrefix_iff _ _).1 h
    exact ⟨rest, rfl, addHTTPS_http_append rest⟩
  · rintro rest rfl
    exact addHTTPS_http_append rest
  · intro h
    obtain ⟨rest, rfl⟩ := (HasPrefix_iff _ _).1 h
    have hn : HasPrefix ("https://" ++ rest) "http://" = false := by
      simp [HasPrefix, List.isPrefixOf]
    simp [addHTTPS, h, hn]
  · intro h1 h2
    simp [addHTTPS, h1, h2]

/-- Witness for C1: the three inputs of `Test_addHTTPS` and one input with a
second `http://` further in. -/
theorem addHTTPS_spec_witness :
    addHTTPS "myserver" = "https://myserver" ∧
    addHTTPS "https://myserver" = "https://myserver" ∧
    addHTTPS "http://myserver" = "https://myserver" ∧
    addHTTPS "http://a/http://b" = "https://a/http://b" :=
  ⟨(addHTTPS_spec "myserver").2.2.2 (by decide) (by decide),
   (addHTTPS_spec "https://myserver").2.2.1 (by decide),
   (addHTTPS_spec "http://myserver").2.1 "myserver" (by decide),
   (addHTTPS_spec "http://a/http://b").2.1 "a/http://b" (by decide)⟩

/-- C2: `Login` on a session that is logged in returns empty output with
`ErrAlreadyLoggedIn`, makes no runner invocation (the runner, its state and
its list of invocations are what they were) and leaves `loggedIn`, `user` and
`server` unchanged. -/
theorem Login_alreadyLoggedIn {σ : Type} (t : Tableau σ) (server username password : String)
    (h : t.loggedIn = true) :
    (t.Login server username password).1 = ("", some ErrAlreadyLoggedIn) ∧
    (t.Login server username password).2 = t ∧
    (t.Login server username password).2.e.requested = t.e.requested ∧
    (t.Login server username password).2.e.state = t.e.state ∧
    (t.Login server username password).2.loggedIn = t.loggedIn ∧
    (t.Login server username password).2.user = t.user ∧
    (t.Login server username password).2.server = t.server := by
  simp [Tableau.Login, Tableau.login, h]

/-- Witness for C2: the "already logged in" case of `TestTableau_login`. -/
theorem Login_alreadyLoggedIn_witness :
    ((fakeSession true "" none).Login "123" "user" "pass").1 = ("", some ErrAlreadyLoggedIn) ∧
    ((fakeSession true "" none).Login "123" "user" "pass").2.e.requested = [] :=
  ⟨(Login_alreadyLoggedIn (fakeSession true "" none) "123" "user" "pass" rfl).1,
   (Login_alreadyLoggedIn (fakeSession true "" none) "123" "user" "pass" rfl).2.2.1⟩

/-- C3: `Login` on a session that is logged out invokes the runner exactly
once, with action `login` and arguments
`-s addHTTPS(server) -u username -p password`, and returns the output and the
error of that invocation, whether it succeeded or failed. -/
theorem Login_loggedOut_invokes {σ : Type} (t : Tableau σ) (server username password : String)
    (h : t.loggedIn = false) :
    (t.Login server username password).2.e.requested =
      t.e.requested ++
        [⟨"login", ["-s", addHTTPS server, "-u", username, "-p", password],
          (t.e.step t.e.state "login"
            ["-s", addHTTPS server, "-u", username, "-p", password]).1.1,
          (t.e.step t.e.state "login"
            ["-s", addHTTPS server, "-u", username, "-p", password]).1.2⟩] ∧
    (t.Login server username password).1 =
      (t.e.step t.e.state "login" ["-s", addHTTPS server, "-u", username, "-p", password]).1 ∧
    (t.Login server username password).2.e.state =
      (t.e.step t.e.state "login" ["-s", addHTTPS server, "-u", username, "-p", password]).2 := by
  simp [Tableau.Login, Tableau.login, h, TabRunner.run, actLogin]

/-- Witness for C3: the "ok" case of `TestTableau_login`. -/
theorem Login_loggedOut_invokes_witness :
    ((fakeSession false "" none).Login "123" "user" "pass").2.e.requested =
      [⟨"login", ["-s", "https://123", "-u", "user", "-p", "pass"], "*", none⟩] ∧
    ((fakeSession false "" none).Login "123" "user" "pass").1 = ("*", none) :=
  ⟨(Login_loggedOut_invokes (fakeSession false "" none) "123" "user" "pass" rfl).1,
   (Login_loggedOut_invokes (fakeSession false "" none) "123" "user" "pass" rfl).2.1⟩

/-- C4: after `Login` on a session that is logged out, the session is logged
in exactly when the runner invocation returned no error (which is the error
`Login` returns), and in both cases `user` is `username` and `server` is
`addHTTPS(server)`. -/
theorem Login_loggedOut_state {σ : Type} (t : Tableau σ) (server username password : String)
    (h : t.loggedIn = false) :
    ((t.Login server username password).2.loggedIn = true ↔
      (t.e.step t.e.state "login"
        ["-s", addHTTPS server, "-u", username, "-p", password]).1.2 = none) ∧
    ((t.Login server username password).2.loggedIn = true ↔
      (t.Login server username password).1.2 = none) ∧
    (t.Login server username password).2.user = username ∧
    (t.Login server username password).2.server = addHTTPS server := by
  simp [Tableau.Login, Tableau.login, h, TabRunner.run, actLogin]

/-- Witness for C4: the "not ok" case of `TestTableau_login`; the session stays
logged out and keeps the attempted user and server. -/
theorem Login_loggedOut_state_witness :
    ((fakeSession false "something bad happened" (some (GoError.external "invalid login"))).Login
        "432" "user" "pass").2.loggedIn = false ∧
    ((fakeSession false "something bad happened" (some (GoError.external "invalid login"))).Login
        "432" "user" "pass").2.user = "user" ∧
    ((fakeSession false "something bad happened" (some (GoError.external "invalid login"))).Login
        "432" "user" "pass").2.server = "https://432" :=
  ⟨by
    have h := (Login_loggedOut_state
      (fakeSession false "something bad happened" (some (GoError.external "invalid login")))
      "432" "user" "pass" rfl).2.1
    cases hl : ((fakeSession false "something bad happened"
      (some (GoError.external "invalid login"))).Login "432" "user" "pass").2.loggedIn
    · rfl
    · exact absurd (h.1 hl) (by decide),
   (Login_loggedOut_state
      (fakeSession false "something bad happened" (some (GoError.external "invalid login")))
      "432" "user" "pass" rfl).2.2.1,
   (Login_loggedOut_state
      (fakeSession false "something bad happened" (some (GoError.external "invalid login")))
      "432" "user" "pass" rfl).2.2.2⟩

/-- Counterexample to C5 as stated: on a logged-out session `RefreshExtracts`
with no dataset fails with `ErrNotLoggedIn`, which is not `ErrEmptyDs`. -/
theorem RefreshExtracts_empty_loggedOut_counterexample :
    ((fakeSession false "" none).RefreshExtracts []).1 = ("", some ErrNotLoggedIn) ∧
    ((fakeSession false "" none).RefreshExtracts []).1.2 ≠ some ErrEmptyDs := by
  decide

/-- C5 (amended): `RefreshExtracts` with no dataset fails with empty output in
every session state and makes no runner invocation; the error is `ErrEmptyDs`
when the session is logged in and `ErrNotLoggedIn` when it is logged out. -/
theorem RefreshExtracts_empty {σ : Type} (t : Tableau σ) :
    (t.RefreshExtracts []).1 =
      ("", some (if t.loggedIn = true then ErrEmptyDs else ErrNotLoggedIn)) ∧
    (t.RefreshExtracts []).2 = t ∧
    (t.RefreshExtracts []).2.e.requested = t.e.requested := by
  cases h : t.loggedIn <;> simp [Tableau.RefreshExtracts, h]

/-- C6: `RefreshExtracts` on a session that is logged out fails with
`ErrNotLoggedIn` and empty output for every dataset list, empty or not, and
makes no runner invocation. -/
theorem RefreshExtracts_notLoggedIn {σ : Type} (t : Tableau σ) (datasets : List String)
    (h : t.loggedIn = false) :
    (t.RefreshExtracts datasets).1 = ("", some ErrNotLoggedIn) ∧
    (t.RefreshExtracts datasets).2 = t ∧
    (t.RefreshExtracts datasets).2.e.requested = t.e.requested := by
  simp [Tableau.RefreshExtracts, h]

/-- Witness for C6: the "not logged in" case of `TestTableau_RefreshExtracts`. -/
theorem RefreshExtracts_notLoggedIn_witness :
    ((fakeSession false "" none).RefreshExtracts ["dataset"]).1 = ("", some ErrNotLoggedIn) ∧
    ((fakeSession false "" none).RefreshExtracts ["dataset"]).2.e.requested = [] :=
  ⟨(RefreshExtracts_notLoggedIn (fakeSession false "" none) ["dataset"] rfl).1,
   (RefreshExtracts_notLoggedIn (fakeSession false "" none) ["dataset"] rfl).2.2⟩

/-- C7: on a logged-in session, for a non-empty dataset list, when every
invocation the runner is given for these datasets succeeds (the runner, from
its current state, returns no error for the `refreshextracts` calls of the
list taken in order), `RefreshExtracts` makes exactly one invocation per
dataset, in list order, each with action `refreshextracts` and arguments
`--datasource name`, and returns the concatenation of the outputs of these
invocations, in that order, with no error. -/
theorem RefreshExtracts_all_succeed {σ : Type} (t : Tableau σ) (datasets : List String)
    (hin : t.loggedIn = true) (hne : datasets ≠ [])
    (hok : ∀ inv ∈ (runCalls t.e.step t.e.state (refreshCalls datasets)).1, inv.err = none) :
    (t.RefreshExtracts datasets).2.e.requested =
      t.e.requested ++ (runCalls t.e.step t.e.state (refreshCalls datasets)).1 ∧
    (runCalls t.e.step t.e.state (refreshCalls datasets)).1.length = datasets.length ∧
    (runCalls t.e.step t.e.state (refreshCalls datasets)).1.map
        (fun inv => (inv.action, inv.args)) =
      datasets.map (fun ds => ("refreshextracts", ["--datasource", ds])) ∧
    (t.RefreshExtracts datasets).1 =
      (outputs (runCalls t.e.step t.e.state (refreshCalls datasets)).1, none) := by
  have hloop := refreshExtractsLoop_all_ok datasets t "" hok
  have hlen : ¬ datasets.length = 0 := by
    intro h
    exact hne (List.length_eq_zero.1 h)
  refine ⟨?_, ?_, ?_, ?_⟩
  · simp [Tableau.RefreshExtracts, hin, hlen, hloop]
  · simp [runCalls_length, refreshCalls]
  · rw [runCalls_calls]
    rfl
  · simp [Tableau.RefreshExtracts, hin, hlen, hloop]

/-- Witness for C7: the "2 datasets" case of `TestTableau_RefreshExtracts`, and
a session that has logged in through `failFirstRunner`, a runner that does not
succeed in every state but does on the two calls made here. -/
theorem RefreshExtracts_all_succeed_witness :
    ((fakeSession true "" none).RefreshExtracts ["dataset1", "dataset2"]).1 = ("**", none) ∧
    ((fakeSession true "" none).RefreshExtracts ["dataset1", "dataset2"]).2.e.requested =
      [⟨"refreshextracts", ["--datasource", "dataset1"], "*", none⟩,
       ⟨"refreshextracts", ["--datasource", "dataset2"], "*", none⟩] ∧
    ((failFirstSession.LoginOnline "user" "pass").2.RefreshExtracts
      ["dataset1", "dataset2"]).1 = ("**", none) :=
  ⟨(RefreshExtracts_all_succeed (fakeSession true "" none) ["dataset1", "dataset2"] rfl
      (by decide) (by decide)).2.2.2,
   (RefreshExtracts_all_succeed (fakeSession true "" none) ["dataset1", "dataset2"] rfl
      (by decide) (by decide)).1,
   (RefreshExtracts_all_succeed (failFirstSession.LoginOnline "user" "pass").2
      ["dataset1", "dataset2"] rfl (by decide) (by decide)).2.2.2⟩

/-- C8: on a logged-in session, when the runner first fails on the dataset at
index `i` (the invocations for the datasets before it succeed), `RefreshExtracts`
makes exactly `i + 1` invocations, those for the datasets `0..i` in order,
returns the error of the failing invocation, and returns the concatenation of
the outputs of these `i + 1` invocations, the failing one included. -/
theorem RefreshExtracts_first_failure {σ : Type} (t : Tableau σ) (datasets : List String)
    (i : Nat) (inv : Invocation) (hin : t.loggedIn = true)
    (hget : (runCalls t.e.step t.e.state (refreshCalls datasets)).1[i]? = some inv)
    (hfail : inv.err ≠ none)
    (hok : ∀ x ∈ (runCalls t.e.step t.e.state (refreshCalls datasets)).1.take i,
      x.err = none) :
    (t.RefreshExtracts datasets).2.e.requested =
      t.e.requested ++ (runCalls t.e.step t.e.state (refreshCalls datasets)).1.take (i + 1) ∧
    ((runCalls t.e.step t.e.state (refreshCalls datasets)).1.take (i + 1)).length = i + 1 ∧
    ((runCalls t.e.step t.e.state (refreshCalls datasets)).1.take (i + 1)).map
        (fun x => (x.action, x.args)) =
      (datasets.take (i + 1)).map (fun ds => ("refreshextracts", ["--datasource", ds])) ∧
    (t.RefreshExtracts datasets).1 =
      (outputs ((runCalls t.e.step t.e.state (refreshCalls datasets)).1.take (i + 1)),
        inv.err) := by
  have hloop := refreshExtractsLoop_first_failure datasets t "" i inv hget hfail hok
  have hlen : ¬ datasets.length = 0 := by
    intro h
    rw [List.length_eq_zero.1 h] at hget
    simp [refreshCalls, runCalls] at hget
  refine ⟨?_, runCalls_take_length _ _ _ _ _ hget, ?_, ?_⟩
  · simp [Tableau.RefreshExtracts, hin, hlen, hloop.2]
  · rw [List.map_take, runCalls_calls, refreshCalls, List.map_take]
    rfl
  · simp [Tableau.RefreshExtracts, hin, hlen, hloop.1]

/-- Witness for C8: the "2 datasets error" case of `TestTableau_RefreshExtracts`;
the first dataset fails, one invocation is made and its output `*` is returned
with the error. -/
theorem RefreshExtracts_first_failure_witness :
    ((fakeSession true "" (some (GoError.external "error refreshing"))).RefreshExtracts
        ["dataset1", "dataset2"]).1 = ("*", some (GoError.external "error refreshing")) ∧
    ((fakeSession true "" (some (GoError.external "error refreshing"))).RefreshExtracts
        ["dataset1", "dataset2"]).2.e.requested =
      [⟨"refreshextracts", ["--datasource", "dataset1"], "*",
        some (GoError.external "error refreshing")⟩] :=
  ⟨(RefreshExtracts_first_failure
      (fakeSession true "" (some (GoError.external "error refreshing")))
      ["dataset1", "dataset2"] 0
      ⟨"refreshextracts", ["--datasource", "dataset1"], "*",
        some (GoError.external "error refreshing")⟩
      rfl rfl (by decide) (fun _ h => absurd h (List.not_mem_nil _))).2.2.2,
   (RefreshExtracts_first_failure
      (fakeSession true "" (some (GoError.external "error refreshing")))
      ["dataset1", "dataset2"] 0
      ⟨"refreshextracts", ["--datasource", "dataset1"], "*",
        some (GoError.external "error refreshing")⟩
      rfl rfl (by decide) (fun _ h => absurd h (List.not_mem_nil _))).1⟩

/-- C9: on a logged-out session, when every login attempt fails (the runner,
from its current state, returns an error for each of the `login` calls for the
entries of `ServerList` taken in order), `LoginOnline` makes exactly one
invocation per entry of `ServerList` (seven of them), in list order, the one
for server `srv` with arguments `-s https://srv -u username -p password`; it
returns the concatenation of the seven outputs in attempt order together with
the error of the last attempt, and the session is still logged out. -/
theorem LoginOnline_all_fail {σ : Type} (t : Tableau σ) (username password : String)
    (hout : t.loggedIn = false)
    (hfail : ∀ x ∈ (runCalls t.e.step t.e.state (onlineCalls username password)).1,
      x.err ≠ none) :
    (t.LoginOnline username password).2.e.requested =
      t.e.requested ++ (runCalls t.e.step t.e.state (onlineCalls username password)).1 ∧
    (runCalls t.e.step t.e.state (onlineCalls username password)).1.length = 7 ∧
    (runCalls t.e.step t.e.state (onlineCalls username password)).1.map
        (fun inv => (inv.action, inv.args)) =
      ServerList.map
        (fun srv => ("login", ["-s", "https://" ++ srv, "-u", username, "-p", password])) ∧
    (∃ last : Invocation,
      (runCalls t.e.step t.e.state (onlineCalls username password)).1.getLast? = some last ∧
      last.err ≠ none ∧
      (t.LoginOnline username password).1 =
        (outputs (runCalls t.e.step t.e.state (onlineCalls username password)).1, last.err)) ∧
    (t.LoginOnline username password).2.loggedIn = false := by
  have hall : ∀ x ∈ (runCalls t.e.step t.e.state (onlineCalls username password)).1,
      x.err ≠ none := hfail
  have hloop := loginOnlineLoop_all_fail username password ServerList t "" none hout
    (by rw [onlineCalls_eq]; exact hall)
  rw [onlineCalls_eq] at hloop
  have hlen : (runCalls t.e.step t.e.state (onlineCalls username password)).1.length = 7 := by
    rw [runCalls_length]
    rfl
  refine ⟨hloop.2.1, hlen, ?_, ?_, hloop.2.2⟩
  · rw [runCalls_calls]
    rfl
  · cases hlast : (runCalls t.e.step t.e.state (onlineCalls username password)).1.getLast? with
    | none =>
      rw [List.getLast?_eq_none_iff] at hlast
      rw [hlast] at hlen
      cases hlen
    | some last =>
      refine ⟨last, rfl, hall last (List.mem_of_getLast?_eq_some hlast), ?_⟩
      have h1 := hloop.1
      rw [hlast] at h1
      simpa [Tableau.LoginOnline] using h1

/-- Witness for C9: the "login not ok" case of `TestTableau_LoginOnline`; seven
stars come back with the error, and the session is logged out. -/
theorem LoginOnline_all_fail_witness :
    ((fakeSession false "" (some (GoError.external "login error"))).LoginOnline
        "user" "pass").2.e.requested.length = 7 ∧
    (∃ last : Invocation,
      (runCalls (fakeSession false "" (some (GoError.external "login error"))).e.step ()
        (onlineCalls "user" "pass")).1.getLast? = some last ∧
      last.err ≠ none ∧
      ((fakeSession false "" (some (GoError.external "login error"))).LoginOnline
        "user" "pass").1 = ("*******", last.err)) ∧
    ((fakeSession false "" (some (GoError.external "login error"))).LoginOnline
        "user" "pass").2.loggedIn = false :=
  ⟨by
    rw [(LoginOnline_all_fail (fakeSession false "" (some (GoError.external "login error")))
      "user" "pass" rfl (by decide)).1]
    rfl,
   (LoginOnline_all_fail (fakeSession false "" (some (GoError.external "login error")))
      "user" "pass" rfl (by decide)).2.2.2.1,
   (LoginOnline_all_fail (fakeSession false "" (some (GoError.external "login error")))
      "user" "pass" rfl (by decide)).2.2.2.2⟩

/-- C10: on a logged-out session, when the runner fails for the first `k`
servers of `ServerList` and succeeds for the server at index `k`, `LoginOnline`
makes exactly `k + 1` invocations (those for the servers `0..k`, in order),
returns no error and the concatenation of the `k + 1` outputs in attempt
order, and leaves the session logged in with `user = username` and
`server = "https://" ++ ServerList[k]`. -/
theorem LoginOnline_first_success {σ : Type} (t : Tableau σ) (username password : String)
    (k : Nat) (inv : Invocation) (hout : t.loggedIn = false)
    (hget : (runCalls t.e.step t.e.state (onlineCalls username password)).1[k]? = some inv)
    (hsucc : inv.err = none)
    (hfail : ∀ x ∈ (runCalls t.e.step t.e.state (onlineCalls username password)).1.take k,
      x.err ≠ none) :
    k < 7 ∧
    (t.LoginOnline username password).2.e.requested =
      t.e.requested ++
        (runCalls t.e.step t.e.state (onlineCalls username password)).1.take (k + 1) ∧
    ((runCalls t.e.step t.e.state (onlineCalls username password)).1.take (k + 1)).length =
      k + 1 ∧
    ((runCalls t.e.step t.e.state (onlineCalls username password)).1.take (k + 1)).map
        (fun x => (x.action, x.args)) =
      (ServerList.take (k + 1)).map
        (fun srv => ("login", ["-s", "https://" ++ srv, "-u", username, "-p", password])) ∧
    (t.LoginOnline username password).1 =
      (outputs ((runCalls t.e.step t.e.state (onlineCalls username password)).1.take (k + 1)),
        none) ∧
    (t.LoginOnline username password).2.loggedIn = true ∧
    (t.LoginOnline username password).2.user = username ∧
    ServerList[k]?.map (fun srv => "https://" ++ srv) =
      some (t.LoginOnline username password).2.server := by
  have hloop := loginOnlineLoop_first_success username password ServerList t "" none k inv hout
    (by rw [onlineCalls_eq]; exact hget) hsucc (by rw [onlineCalls_eq]; exact hfail)
  rw [onlineCalls_eq] at hloop
  have hk : k < 7 := by
    rcases Nat.lt_or_ge k 7 with h | h
    · exact h
    · have hlen : (runCalls t.e.step t.e.state (onlineCalls username password)).1.length ≤ k := by
        rw [runCalls_length]
        exact h
      rw [List.getElem?_eq_none hlen] at hget
      cases hget
  refine ⟨hk, hloop.2.1, runCalls_take_length _ _ _ _ _ hget, ?_, ?_, hloop.2.2.1,
    hloop.2.2.2.1, ?_⟩
  · rw [List.map_take, runCalls_calls, onlineCalls, List.map_take]
    rfl
  · simpa [Tableau.LoginOnline] using hloop.1
  · have h := hloop.2.2.2.2
    rw [← List.getElem?_map, ServerList_addHTTPS, List.getElem?_map] at h
    exact h

/-- Witness for C10: the "login ok" case of `TestTableau_LoginOnline`; the
first server accepts the login, one invocation is made and one star comes
back. -/
theorem LoginOnline_first_success_witness :
    ((fakeSession false "" none).LoginOnline "user" "pass").1 = ("*", none) ∧
    ((fakeSession false "" none).LoginOnline "user" "pass").2.e.requested =
      [⟨"login", ["-s", "https://dub01.online.tableau.com", "-u", "user", "-p", "pass"],
        "*", none⟩] ∧
    ((fakeSession false "" none).LoginOnline "user" "pass").2.loggedIn = true :=
  ⟨(LoginOnline_first_success (fakeSession false "" none) "user" "pass" 0
      ⟨"login", ["-s", "https://dub01.online.tableau.com", "-u", "user", "-p", "pass"],
        "*", none⟩
      rfl rfl rfl (fun _ h => absurd h (List.not_mem_nil _))).2.2.2.2.1,
   (LoginOnline_first_success (fakeSession false "" none) "user" "pass" 0
      ⟨"login", ["-s", "https://dub01.online.tableau.com", "-u", "user", "-p", "pass"],
        "*", none⟩
      rfl rfl rfl (fun _ h => absurd h (List.not_mem_nil _))).2.1,
   (LoginOnline_first_success (fakeSession false "" none) "user" "pass" 0
      ⟨"login", ["-s", "https://dub01.online.tableau.com", "-u", "user", "-p", "pass"],
        "*", none⟩
      rfl rfl rfl (fun _ h => absurd h (List.not_mem_nil _))).2.2.2.2.2.1⟩

/-! ### Further helper lemmas -/

theorem addHTTPS_https_fixed (uri : String) (h : HasPrefix uri "https://" = true) :
    addHTTPS uri = uri := by
  obtain ⟨rest, rfl⟩ := (HasPrefix_iff _ _).1 h
  have hn : HasPrefix ("https://" ++ rest) "http://" = false := by
    simp [HasPrefix, List.isPrefixOf]
  simp [addHTTPS, h, hn]

theorem addHTTPS_hasPrefix (uri : String) : HasPrefix (addHTTPS uri) "https://" = true := by
  cases h1 : HasPrefix uri "http://" with
  | true =>
    obtain ⟨rest, rfl⟩ := (HasPrefix_iff _ _).1 h1
    rw [addHTTPS_http_append]
    exact HasPrefix_append _ _
  | false =>
    cases h2 : HasPrefix uri "https://" with
    | true => rw [addHTTPS_https_fixed uri h2]; exact h2
    | false =>
      have h : addHTTPS uri = "https://" ++ uri := by simp [addHTTPS, h1, h2]
      rw [h]
      exact HasPrefix_append _ _

theorem login_loggedIn {σ : Type} (t : Tableau σ) (srv username password : String)
    (h : t.loggedIn = true) :
    t.login srv username password = (("", some ErrAlreadyLoggedIn), t) := by
  simp [Tableau.login, h]

theorem loginOnlineLoop_loggedIn {σ : Type} (username password : String) (srvs : List String) :
    ∀ (t : Tableau σ) (buf : String) (err0 : Option GoError),
      t.loggedIn = true →
      loginOnlineLoop username password srvs t buf err0 =
        ((buf, if srvs = [] then err0 else some ErrAlreadyLoggedIn), t) := by
  induction srvs with
  | nil => intro t buf err0 _; simp [loginOnlineLoop]
  | cons srv rest ih =>
    intro t buf err0 h
    simp only [loginOnlineLoop, login_loggedIn t srv username password h, String.append_empty]
    rw [ih t buf (some ErrAlreadyLoggedIn) h]
    cases rest <;> simp

theorem loginOnlineLoop_nil_error {σ : Type} (username password : String)
    (srvs : List String) :
    ∀ (t : Tableau σ) (buf : String) (err0 : Option GoError),
      t.loggedIn = false →
      (srvs = [] → err0 ≠ none) →
      (loginOnlineLoop username password srvs t buf err0).1.2 = none →
      (loginOnlineLoop username password srvs t buf err0).2.loggedIn = true := by
  induction srvs with
  | nil =>
    intro t buf err0 _ h0 h
    simp only [loginOnlineLoop] at h
    exact absurd h (h0 rfl)
  | cons srv rest ih =>
    intro t buf err0 hout _ h
    cases herr : (t.e.step t.e.state "login"
        ["-s", addHTTPS srv, "-u", username, "-p", password]).1.2 with
    | none =>
      simp [loginOnlineLoop, login_loggedOut t srv username password hout, herr]
    | some err =>
      simp only [loginOnlineLoop, login_loggedOut t srv username password hout, herr] at h ⊢
      exact ih _ _ (some err) (by simp) (fun _ => by simp) h

/-- C11: `Logout` on a session that is logged out (a fresh session in
particular) returns empty output and no error, makes no runner invocation and
leaves `loggedIn`, `user` and `server` unchanged. -/
theorem Logout_loggedOut {σ : Type} (t : Tableau σ) (h : t.loggedIn = false) :
    t.Logout.1 = ("", none) ∧
    t.Logout.2 = t ∧
    t.Logout.2.e.requested = t.e.requested ∧
    t.Logout.2.e.state = t.e.state ∧
    t.Logout.2.loggedIn = t.loggedIn ∧
    t.Logout.2.user = t.user ∧
    t.Logout.2.server = t.server := by
  simp [Tableau.Logout, h]

/-- Witness for C11: the "not logged int" case of `TestTableau_Logout`. -/
theorem Logout_loggedOut_witness :
    (fakeSession false "" none).Logout.1 = ("", none) ∧
    (fakeSession false "" none).Logout.2.e.requested = [] :=
  ⟨(Logout_loggedOut (fakeSession false "" none) rfl).1,
   (Logout_loggedOut (fakeSession false "" none) rfl).2.2.1⟩

/-- C12: `Logout` on a session that is logged in invokes the runner exactly
once, with action `logout` and no arguments, and returns the output and the
error of that invocation; the session is logged out afterwards when the
invocation succeeded and still logged in when it failed; `user` and `server`
are unchanged in both cases. -/
theorem Logout_loggedIn {σ : Type} (t : Tableau σ) (h : t.loggedIn = true) :
    t.Logout.2.e.requested =
      t.e.requested ++
        [⟨"logout", [], (t.e.step t.e.state "logout" []).1.1,
          (t.e.step t.e.state "logout" []).1.2⟩] ∧
    t.Logout.1 = (t.e.step t.e.state "logout" []).1 ∧
    t.Logout.2.e.state = (t.e.step t.e.state "logout" []).2 ∧
    ((t.e.step t.e.state "logout" []).1.2 = none → t.Logout.2.loggedIn = false) ∧
    ((t.e.step t.e.state "logout" []).1.2 ≠ none → t.Logout.2.loggedIn = true) ∧
    t.Logout.2.user = t.user ∧
    t.Logout.2.server = t.server := by
  cases herr : (t.e.step t.e.state "logout" []).1.2 with
  | none =>
    simp [Tableau.Logout, h, TabRunner.run, actLogout, herr]
    exact Prod.ext rfl herr.symm
  | some err =>
    simp [Tableau.Logout, h, TabRunner.run, actLogout, herr]
    exact Prod.ext rfl herr.symm

/-- Witness for C12: the "ok" case of `TestTableau_Logout`, and the same
session over a runner that fails. -/
theorem Logout_loggedIn_witness :
    (fakeSession true "" none).Logout.2.e.requested = [⟨"logout", [], "*", none⟩] ∧
    (fakeSession true "" none).Logout.1 = ("*", none) ∧
    (fakeSession true "" none).Logout.2.loggedIn = false ∧
    (fakeSession true "" (some (GoError.external "logout error"))).Logout.2.loggedIn = true :=
  ⟨(Logout_loggedIn (fakeSession true "" none) rfl).1,
   (Logout_loggedIn (fakeSession true "" none) rfl).2.1,
   (Logout_loggedIn (fakeSession true "" none) rfl).2.2.2.1 rfl,
   (Logout_loggedIn (fakeSession true "" (some (GoError.external "logout error"))) rfl).2.2.2.2.1
     (fun h => Option.noConfusion h)⟩

/-- C18: whenever `LoginOnline` returns no error, the session is logged in
afterwards, whatever the initial session state, the credentials and the
runner. -/
theorem LoginOnline_nil_error_loggedIn {σ : Type} (t : Tableau σ) (username password : String)
    (h : (t.LoginOnline username password).1.2 = none) :
    (t.LoginOnline username password).2.loggedIn = true := by
  cases hin : t.loggedIn with
  | true =>
    rw [Tableau.LoginOnline, loginOnlineLoop_loggedIn username password ServerList t "" none hin]
    exact hin
  | false =>
    exact loginOnlineLoop_nil_error username password ServerList t "" none hin
      (fun hnil => by simp [ServerList] at hnil) h

/-- Witness for C18: the "login ok" case of `TestTableau_LoginOnline`. -/
theorem LoginOnline_nil_error_loggedIn_witness :
    ((fakeSession false "" none).LoginOnline "user" "pass").1.2 = none ∧
    ((fakeSession false "" none).LoginOnline "user" "pass").2.loggedIn = true :=
  ⟨rfl, LoginOnline_nil_error_loggedIn (fakeSession false "" none) "user" "pass" rfl⟩

/-- C19: `LoginOnline` on a session that is already logged in returns empty
output with `ErrAlreadyLoggedIn`, makes no runner invocation and leaves
`loggedIn`, `user` and `server` unchanged. -/
theorem LoginOnline_alreadyLoggedIn {σ : Type} (t : Tableau σ) (username password : String)
    (h : t.loggedIn = true) :
    (t.LoginOnline username password).1 = ("", some ErrAlreadyLoggedIn) ∧
    (t.LoginOnline username password).2 = t ∧
    (t.LoginOnline username password).2.e.requested = t.e.requested ∧
    (t.LoginOnline username password).2.e.state = t.e.state ∧
    (t.LoginOnline username password).2.loggedIn = t.loggedIn ∧
    (t.LoginOnline username password).2.user = t.user ∧
    (t.LoginOnline username password).2.server = t.server := by
  rw [Tableau.LoginOnline, loginOnlineLoop_loggedIn username password ServerList t "" none h]
  simp [ServerList]

/-- Witness for C19: a logged-in session over `fakeRunner`. -/
theorem LoginOnline_alreadyLoggedIn_witness :
    ((fakeSession true "" none).LoginOnline "user" "pass").1 = ("", some ErrAlreadyLoggedIn) ∧
    ((fakeSession true "" none).LoginOnline "user" "pass").2.e.requested = [] :=
  ⟨(LoginOnline_alreadyLoggedIn (fakeSession true "" none) "user" "pass" rfl).1,
   (LoginOnline_alreadyLoggedIn (fakeSession true "" none) "user" "pass" rfl).2.2.1⟩

/-- C20: `addHTTPS` always yields a string that starts with `https://`, and
applying it twice is the same as applying it once. -/
theorem addHTTPS_idempotent (uri : String) :
    HasPrefix (addHTTPS uri) "https://" = true ∧
    addHTTPS (addHTTPS uri) = addHTTPS uri :=
  ⟨addHTTPS_hasPrefix uri, addHTTPS_https_fixed _ (addHTTPS_hasPrefix uri)⟩

/-- C13: the executor made by `newTabcmd d` has a timeout of 15 seconds
(15 000 000 000 ns) when `d` is zero and of exactly `d` otherwise. -/
theorem newTabcmd_timeout (execCommandContext : Duration → String → List String → Cmd)
    (d : Duration) :
    (d = 0 → (newTabcmd execCommandContext d).timeout = 15 * Second) ∧
    (d = 0 → (newTabcmd execCommandContext d).timeout = 15000000000) ∧
    (d ≠ 0 → (newTabcmd execCommandContext d).timeout = d) := by
  refine ⟨?_, ?_, ?_⟩
  · intro h
    simp [newTabcmd, h, CCommandTimeout]
  · intro h
    simp [newTabcmd, h, CCommandTimeout, Second]
  · intro h
    simp [newTabcmd, h]

/-- Witness for C13: the two cases of `TestNewTabcmd`; five hours are kept and
zero becomes fifteen seconds. -/
theorem newTabcmd_timeout_witness :
    (newTabcmd testCommandContext (5 * Hour)).timeout = 5 * Hour ∧
    (newTabcmd testCommandContext 0).timeout = 15 * Second :=
  ⟨(newTabcmd_timeout testCommandContext (5 * Hour)).2.2 (by decide),
   (newTabcmd_timeout testCommandContext 0).1 rfl⟩

/-- C14: `run action args` creates the command for the program `tabcmd` with
the argument vector `action` followed by `args`, under a context with the
configured timeout; when running it reports no error the result is its
standard output and no error, and when it reports an error the result is its
standard error together with that error. -/
theorem tabcmd_run_spec (t : tabcmd) (action : String) (args : List String) :
    ((t.commandContext t.timeout "tabcmd" (action :: args)).Run.err = none →
      t.run action args =
        ((t.commandContext t.timeout "tabcmd" (action :: args)).Run.stdout, none)) ∧
    (∀ err, (t.commandContext t.timeout "tabcmd" (action :: args)).Run.err = some err →
      t.run action args =
        ((t.commandContext t.timeout "tabcmd" (action :: args)).Run.stderr, some err)) := by
  constructor
  · intro h
    simp [tabcmd.run, cTabcmd, h]
  · intro err h
    simp [tabcmd.run, cTabcmd, h]

/-- Witness for C14: the two cases of `TestTabcmd_Run` against the helper
process, and the same executor with a timeout of one nanosecond, which the
helper process cannot meet. -/
theorem tabcmd_run_spec_witness :
    (tabcmd.mk CCommandTimeout testCommandContext).run "succeed"
        ["param1", "param2", "param3"] = ("Success: [param1 param2 param3]", none) ∧
    (tabcmd.mk CCommandTimeout testCommandContext).run "fail"
        ["fail1", "fail2"] =
      ("Failure: [fail1 fail2]", some (GoError.external "exit status 1")) ∧
    (tabcmd.mk 1 testCommandContext).run "succeed" ["param1", "param2", "param3"] =
      ("", some (GoError.external "context deadline exceeded")) :=
  ⟨(tabcmd_run_spec (tabcmd.mk CCommandTimeout testCommandContext) "succeed"
      ["param1", "param2", "param3"]).1 (by decide),
   (tabcmd_run_spec (tabcmd.mk CCommandTimeout testCommandContext) "fail"
      ["fail1", "fail2"]).2 (GoError.external "exit status 1") (by decide),
   (tabcmd_run_spec (tabcmd.mk 1 testCommandContext) "succeed"
      ["param1", "param2", "param3"]).2 (GoError.external "context deadline exceeded")
      (by decide)⟩

/-! ### The singleton -/

theorem NewTableau_done (cc : Duration → String → List String → Cmd) (d : Duration) (p : Pkg)
    (h : p.gOnce = true) : NewTableau cc d p = (p.gTb, p) := by
  simp [NewTableau, h]

theorem runSteps_singleton (cc : Duration → String → List String → Cmd) (timeout : Duration)
    (steps : List PkgStep) :
    ∀ (p : Pkg), p.gOnce = true → p.gTb = some 0 →
      (∃ t, p.heap = [t] ∧ t.e.state.timeout = timeout) →
      (∀ h ∈ (runSteps cc steps (some 0) p).1, h = some 0) ∧
      (runSteps cc steps (some 0) p).2.gOnce = true ∧
      (runSteps cc steps (some 0) p).2.gTb = some 0 ∧
      (∃ t, (runSteps cc steps (some 0) p).2.heap = [t] ∧ t.e.state.timeout = timeout) := by
  induction steps with
  | nil =>
    intro p h1 h2 h3
    simp [runSteps, h1, h2, h3]
  | cons step rest ih =>
    intro p h1 h2 h3
    cases step with
    | newTableau d =>
      simp only [runSteps, NewTableau_done cc d p h1, h2]
      have := ih p h1 h2 h3
      refine ⟨?_, this.2⟩
      intro h hh
      rcases List.mem_cons.1 hh with hh | hh
      · exact hh
      · exact this.1 h hh
    | setUser v =>
      obtain ⟨t, ht, htime⟩ := h3
      simp only [runSteps]
      apply ih
      · simp [Pkg.setUser, ht, h1]
      · simp [Pkg.setUser, ht, h2]
      · simp [Pkg.setUser, ht, htime]
    | setServer v =>
      obtain ⟨t, ht, htime⟩ := h3
      simp only [runSteps]
      apply ih
      · simp [Pkg.setServer, ht, h1]
      · simp [Pkg.setServer, ht, h2]
      · simp [Pkg.setServer, ht, htime]

/-- C15: over the explicit package state, the first `NewTableau d` creates the
session (handle `some 0`) with the executor timeout chosen from `d`; whatever
the client does next (more calls of `NewTableau` with any timeouts, field
assignments through its handle), every call returns that same handle, the heap
still holds that one session and its executor timeout is the one fixed by the
first call.  A call made when `gOnce` has run returns `gTb` and changes
nothing.  After two calls, an assignment of `user`/`server` through either
handle is read back through the other. -/
theorem NewTableau_singleton (cc : Duration → String → List String → Cmd) (d1 d2 : Duration)
    (steps : List PkgStep) (u1 s1 u2 s2 : String) :
    (NewTableau cc d1 Pkg.init).1 = some 0 ∧
    (∀ h ∈ (runSteps cc steps (NewTableau cc d1 Pkg.init).1 (NewTableau cc d1 Pkg.init).2).1,
      h = (NewTableau cc d1 Pkg.init).1) ∧
    (∃ t, (runSteps cc steps (NewTableau cc d1 Pkg.init).1 (NewTableau cc d1 Pkg.init).2).2.heap
        = [t] ∧ t.e.state.timeout = (newTabcmd cc d1).timeout) ∧
    (∀ p : Pkg, p.gOnce = true → NewTableau cc d2 p = (p.gTb, p)) ∧
    (NewTableau cc d2
      (((NewTableau cc d1 Pkg.init).2.setServer (NewTableau cc d1 Pkg.init).1 s1).setUser
        (NewTableau cc d1 Pkg.init).1 u1)).1 = (NewTableau cc d1 Pkg.init).1 ∧
    (NewTableau cc d2
      (((NewTableau cc d1 Pkg.init).2.setServer (NewTableau cc d1 Pkg.init).1 s1).setUser
        (NewTableau cc d1 Pkg.init).1 u1)).2 =
      (((NewTableau cc d1 Pkg.init).2.setServer (NewTableau cc d1 Pkg.init).1 s1).setUser
        (NewTableau cc d1 Pkg.init).1 u1) ∧
    ((NewTableau cc d2
      (((NewTableau cc d1 Pkg.init).2.setServer (NewTableau cc d1 Pkg.init).1 s1).setUser
        (NewTableau cc d1 Pkg.init).1 u1)).2.load
      (NewTableau cc d2
        (((NewTableau cc d1 Pkg.init).2.setServer (NewTableau cc d1 Pkg.init).1 s1).setUser
          (NewTableau cc d1 Pkg.init).1 u1)).1).map
        (fun t => (t.user, t.server, t.e.state.timeout)) =
      some (u1, s1, (newTabcmd cc d1).timeout) ∧
    ((((NewTableau cc d2
      (((NewTableau cc d1 Pkg.init).2.setServer (NewTableau cc d1 Pkg.init).1 s1).setUser
        (NewTableau cc d1 Pkg.init).1 u1)).2.setServer
      (NewTableau cc d2
        (((NewTableau cc d1 Pkg.init).2.setServer (NewTableau cc d1 Pkg.init).1 s1).setUser
          (NewTableau cc d1 Pkg.init).1 u1)).1 s2).setUser
      (NewTableau cc d2
        (((NewTableau cc d1 Pkg.init).2.setServer (NewTableau cc d1 Pkg.init).1 s1).setUser
          (NewTableau cc d1 Pkg.init).1 u1)).1 u2).load (NewTableau cc d1 Pkg.init).1).map
        (fun t => (t.user, t.server, t.e.state.timeout)) =
      some (u2, s2, (newTabcmd cc d1).timeout) := by
  have hrun := runSteps_singleton cc (newTabcmd cc d1).timeout steps
    (NewTableau cc d1 Pkg.init).2 rfl rfl ⟨_, rfl, rfl⟩
  refine ⟨rfl, hrun.1, hrun.2.2.2, fun p hp => NewTableau_done cc d2 p hp, rfl, rfl, rfl, rfl⟩

/-- Witness for C15: `TestNewTableau`; the session is asked for with timeout
400, then again with 500 by a client that assigns fields in between. -/
theorem NewTableau_singleton_witness :
    (NewTableau testCommandContext 500
      (((NewTableau testCommandContext 400 Pkg.init).2.setServer (some 0)
        "old server").setUser (some 0) "peter")).1 = some 0 ∧
    (NewTableau testCommandContext 500
        (NewTableau testCommandContext 400 Pkg.init).2).2.heap.length = 1 ∧
    ((((NewTableau testCommandContext 500
      (((NewTableau testCommandContext 400 Pkg.init).2.setServer (some 0)
        "old server").setUser (some 0) "peter")).2.setServer (some 0) "new server").setUser
        (some 0) "rupert").load (some 0)).map (fun t => (t.user, t.server, t.e.state.timeout)) =
      some ("rupert", "new server", 400) :=
  ⟨(NewTableau_singleton testCommandContext 400 500 []
      "peter" "old server" "rupert" "new server").2.2.2.2.1,
   congrArg (fun q : Option Nat × Pkg => q.2.heap.length)
     ((NewTableau_singleton testCommandContext 400 500 []
      "peter" "old server" "rupert" "new server").2.2.2.1
      (NewTableau testCommandContext 400 Pkg.init).2 rfl),
   (NewTableau_singleton testCommandContext 400 500 []
      "peter" "old server" "rupert" "new server").2.2.2.2.2.2.2⟩

/-! ### Traces -/

theorem traceLoggedIn_append (a b : List Invocation) :
    ∀ s : Bool, traceLoggedIn s (a ++ b) = traceLoggedIn (traceLoggedIn s a) b := by
  induction a with
  | nil => intro s; rfl
  | cons x xs ih => intro s; simp [traceLoggedIn, ih]

theorem guarded_append (a b : List Invocation) :
    ∀ s : Bool, guarded s (a ++ b) = (guarded s a && guarded (traceLoggedIn s a) b) := by
  induction a with
  | nil => intro s; simp [guarded, traceLoggedIn]
  | cons x xs ih => intro s; simp [guarded, traceLoggedIn, ih, Bool.and_assoc]

theorem trace_refresh (delta : List Invocation)
    (h : ∀ x ∈ delta, x.action = "refreshextracts") :
    guarded true delta = true ∧ traceLoggedIn true delta = true := by
  induction delta with
  | nil => simp [guarded, traceLoggedIn]
  | cons x xs ih =>
    have hx := h x (List.mem_cons_self _ _)
    have ih := ih (fun y hy => h y (List.mem_cons_of_mem _ hy))
    have hn : nextLoggedIn true x = true := by
      simp [nextLoggedIn, hx]
    simp [guarded, traceLoggedIn, allowedIn, hx, hn, ih]

theorem hasOpenLogin_nil : ¬ hasOpenLogin [] := by
  rintro ⟨pre, inv, post, h, _⟩
  cases pre <;> simp at h

theorem hasOpenLogin_concat (l : List Invocation) (x : Invocation) :
    hasOpenLogin (l ++ [x]) ↔
      (x.action = "login" ∧ x.err = none) ∨
        (hasOpenLogin l ∧ ¬ (x.action = "logout" ∧ x.err = none)) := by
  constructor
  · rintro ⟨pre, inv, post, h, hact, herr, hpost⟩
    rcases List.eq_nil_or_concat post with hp | ⟨L, b, hp⟩
    · subst hp
      have h2 : l ++ [x] = pre ++ [inv] := h
      obtain ⟨_, hx⟩ := List.append_inj' h2 rfl
      simp only [List.cons.injEq, and_true] at hx
      subst hx
      exact Or.inl ⟨hact, herr⟩
    · subst hp
      have h2 : l ++ [x] = (pre ++ inv :: L) ++ [b] := by simp [h]
      obtain ⟨hl, hx⟩ := List.append_inj' h2 rfl
      simp only [List.cons.injEq, and_true] at hx
      subst hx
      refine Or.inr ⟨⟨pre, inv, L, hl, hact, herr, fun y hy => hpost y ?_⟩, hpost x ?_⟩
      · simp [hy]
      · simp
  · rintro (⟨hact, herr⟩ | ⟨⟨pre, inv, post, h, hact, herr, hpost⟩, hx⟩)
    · exact ⟨l, x, [], rfl, hact, herr, fun y hy => by simp at hy⟩
    · refine ⟨pre, inv, post ++ [x], by simp [h], hact, herr, fun y hy => ?_⟩
      rcases List.mem_append.1 hy with hy | hy
      · exact hpost y hy
      · simp only [List.mem_singleton] at hy
        subst hy
        exact hx

theorem traceLoggedIn_iff_hasOpenLogin (trace : List Invocation) :
    traceLoggedIn false trace = true ↔ hasOpenLogin trace := by
  induction trace using List.reverseRecOn with
  | nil => simp [traceLoggedIn, hasOpenLogin_nil]
  | append_singleton l x ih =>
    rw [traceLoggedIn_append, hasOpenLogin_concat, ← ih]
    simp only [traceLoggedIn, nextLoggedIn]
    by_cases h1 : x.action = "login" ∧ x.err = none
    · simp [h1]
    · by_cases h2 : x.action = "logout" ∧ x.err = none
      · simp [h1, h2]
      · simp [h1, h2]

/-! ### What one operation adds to the trace -/

theorem refreshExtractsLoop_effect {σ : Type} (datasets : List String) :
    ∀ (t : Tableau σ) (buf : String),
      ∃ delta : List Invocation,
        (refreshExtractsLoop datasets t buf).2.e.requested = t.e.requested ++ delta ∧
        (refreshExtractsLoop datasets t buf).2.loggedIn = t.loggedIn ∧
        (∀ x ∈ delta, x.action = "refreshextracts") ∧
        (∀ last, delta.getLast? = some last →
          (refreshExtractsLoop datasets t buf).1.2 = last.err) ∧
        (∀ x ∈ delta, x.err ≠ none → (refreshExtractsLoop datasets t buf).1.2 ≠ none) ∧
        (delta = [] → datasets = []) ∧
        ((refreshExtractsLoop datasets t buf).1.2 = none → delta.length = datasets.length) := by
  induction datasets with
  | nil =>
    intro t buf
    exact ⟨[], by simp [refreshExtractsLoop]⟩
  | cons ds rest ih =>
    intro t buf
    cases herr : (t.e.step t.e.state "refreshextracts" ["--datasource", ds]).1.2 with
    | some err =>
      refine ⟨[⟨"refreshextracts", ["--datasource", ds],
        (t.e.step t.e.state "refreshextracts" ["--datasource", ds]).1.1, some err⟩], ?_⟩
      simp [refreshExtractsLoop, TabRunner.run, actRefreshExtracts, herr]
    | none =>
      obtain ⟨delta, h1, h2, h3, h4, h5, h6, h7⟩ := ih
        { loggedIn := t.loggedIn, user := t.user, server := t.server,
          e := (t.e.run actRefreshExtracts ["--datasource", ds]).2 }
        (buf ++ (t.e.run actRefreshExtracts ["--datasource", ds]).1.1)
      simp only [TabRunner.run, actRefreshExtracts, herr] at h1 h2 h4 h5 h7
      refine ⟨⟨"refreshextracts", ["--datasource", ds],
        (t.e.step t.e.state "refreshextracts" ["--datasource", ds]).1.1, none⟩ :: delta, ?_⟩
      simp only [refreshExtractsLoop, TabRunner.run, actRefreshExtracts, herr]
      refine ⟨by simp [h1], h2, ?_, ?_, ?_, by simp, ?_⟩
      · intro x hx
        rcases List.mem_cons.1 hx with hx | hx
        · rw [hx]
        · exact h3 x hx
      · intro last hlast
        rcases delta with _ | ⟨d, dl⟩
        · have hr := h6 rfl
          subst hr
          simp only [List.getLast?_singleton, Option.some.injEq] at hlast
          subst hlast
          simp [refreshExtractsLoop]
        · rw [List.getLast?_cons_cons] at hlast
          exact h4 last hlast
      · intro x hx hxe
        rcases List.mem_cons.1 hx with hx | hx
        · rw [hx] at hxe
          exact absurd rfl hxe
        · exact h5 x hx hxe
      · intro hnone
        simp [h7 hnone]

theorem loginOnlineLoop_effect {σ : Type} (username password : String) (srvs : List String) :
    ∀ (t : Tableau σ) (buf : String) (err0 : Option GoError),
      t.loggedIn = false →
      ∃ delta : List Invocation,
        (loginOnlineLoop username password srvs t buf err0).2.e.requested =
          t.e.requested ++ delta ∧
        guarded false delta = true ∧
        (loginOnlineLoop username password srvs t buf err0).2.loggedIn =
          traceLoggedIn false delta ∧
        (∀ last, delta.getLast? = some last →
          (loginOnlineLoop username password srvs t buf err0).1.2 = last.err) ∧
        (delta = [] →
          (loginOnlineLoop username password srvs t buf err0).1.2 = err0 ∧ srvs = []) := by
  induction srvs with
  | nil =>
    intro t buf err0 hout
    exact ⟨[], by simp [loginOnlineLoop, guarded, traceLoggedIn, hout]⟩
  | cons srv rest ih =>
    intro t buf err0 hout
    cases herr : (t.e.step t.e.state "login"
        ["-s", addHTTPS srv, "-u", username, "-p", password]).1.2 with
    | none =>
      refine ⟨[⟨"login", ["-s", addHTTPS srv, "-u", username, "-p", password],
        (t.e.step t.e.state "login"
          ["-s", addHTTPS srv, "-u", username, "-p", password]).1.1, none⟩], ?_⟩
      simp [loginOnlineLoop, login_loggedOut t srv username password hout, herr, guarded,
        traceLoggedIn, allowedIn, nextLoggedIn]
    | some err =>
      obtain ⟨delta, h1, h2, h3, h4, h5⟩ := ih (t.login srv username password).2
        (buf ++ (t.login srv username password).1.1) (some err)
        (by simp [login_loggedOut t srv username password hout, herr])
      simp only [login_loggedOut t srv username password hout, herr, Option.isNone_some]
        at h1 h2 h3 h4 h5
      refine ⟨⟨"login", ["-s", addHTTPS srv, "-u", username, "-p", password],
        (t.e.step t.e.state "login"
          ["-s", addHTTPS srv, "-u", username, "-p", password]).1.1, some err⟩ :: delta, ?_⟩
      simp only [loginOnlineLoop, login_loggedOut t srv username password hout, herr,
        Option.isNone_some]
      refine ⟨by simp [h1], ?_, ?_, ?_, by simp⟩
      · simp [guarded, allowedIn, nextLoggedIn, h2]
      · simp [traceLoggedIn, nextLoggedIn, h3]
      · intro last hlast
        rcases delta with _ | ⟨d, dl⟩
        · simp only [List.getLast?_singleton, Option.some.injEq] at hlast
          subst hlast
          exact (h5 rfl).1
        · rw [List.getLast?_cons_cons] at hlast
          exact h4 last hlast

theorem apply_effect {σ : Type} (t : Tableau σ) (op : Op) :
    ∃ delta : List Invocation,
      (t.apply op).2.e.requested = t.e.requested ++ delta ∧
      guarded t.loggedIn delta = true ∧
      (t.apply op).2.loggedIn = traceLoggedIn t.loggedIn delta ∧
      (∀ last, delta.getLast? = some last → (t.apply op).1.2 = last.err) ∧
      ((∀ username password, op ≠ Op.LoginOnline username password) →
        ∀ x ∈ delta, x.err ≠ none → (t.apply op).1.2 ≠ none) ∧
      ((t.apply op).1.2 = none → delta = [] → op = Op.Logout ∧ t.loggedIn = false) ∧
      ((t.apply op).1.2 = none →
        ∀ datasets, op = Op.RefreshExtracts datasets → delta.length = datasets.length) := by
  cases op with
  | Login server username password =>
    cases hin : t.loggedIn with
    | true =>
      exact ⟨[], by simp [Tableau.apply, Tableau.Login, login_loggedIn t _ _ _ hin, guarded,
        traceLoggedIn, hin]⟩
    | false =>
      refine ⟨[⟨"login", ["-s", addHTTPS server, "-u", username, "-p", password],
        (t.e.step t.e.state "login"
          ["-s", addHTTPS server, "-u", username, "-p", password]).1.1,
        (t.e.step t.e.state "login"
          ["-s", addHTTPS server, "-u", username, "-p", password]).1.2⟩], ?_⟩
      cases herr : (t.e.step t.e.state "login"
          ["-s", addHTTPS server, "-u", username, "-p", password]).1.2 <;>
        simp [Tableau.apply, Tableau.Login, login_loggedOut t _ _ _ hin, guarded,
          traceLoggedIn, allowedIn, nextLoggedIn, herr]
  | LoginOnline username password =>
    cases hin : t.loggedIn with
    | true =>
      have hl := loginOnlineLoop_loggedIn username password ServerList t "" none hin
      rw [if_neg (by decide)] at hl
      exact ⟨[], by simp [Tableau.apply, Tableau.LoginOnline, hl, guarded, traceLoggedIn, hin]⟩
    | false =>
      obtain ⟨delta, h1, h2, h3, h4, h5⟩ :=
        loginOnlineLoop_effect username password ServerList t "" none hin
      refine ⟨delta, h1, h2, h3, h4, ?_, ?_, ?_⟩
      · intro hne
        exact absurd rfl (hne username password)
      · intro _ hd
        have := (h5 hd).2
        simp [ServerList] at this
      · intro _ datasets hop
        cases hop
  | Logout =>
    cases hin : t.loggedIn with
    | false =>
      exact ⟨[], by simp [Tableau.apply, Tableau.Logout, hin, guarded, traceLoggedIn]⟩
    | true =>
      refine ⟨[⟨"logout", [], (t.e.step t.e.state "logout" []).1.1,
        (t.e.step t.e.state "logout" []).1.2⟩], ?_⟩
      cases herr : (t.e.step t.e.state "logout" []).1.2 <;>
        simp [Tableau.apply, Tableau.Logout, hin, TabRunner.run, actLogout, guarded,
          traceLoggedIn, allowedIn, nextLoggedIn, herr]
  | RefreshExtracts datasets =>
    cases hin : t.loggedIn with
    | false =>
      exact ⟨[], by simp [Tableau.apply, Tableau.RefreshExtracts, hin, guarded, traceLoggedIn]⟩
    | true =>
      cases datasets with
      | nil =>
        exact ⟨[], by simp [Tableau.apply, Tableau.RefreshExtracts, hin, guarded,
          traceLoggedIn]⟩
      | cons ds rest =>
        obtain ⟨delta, h1, h2, h3, h4, h5, h6, h7⟩ := refreshExtractsLoop_effect (ds :: rest) t ""
        have htr := trace_refresh delta h3
        refine ⟨delta, ?_⟩
        simp only [Tableau.apply, Tableau.RefreshExtracts, hin, Bool.not_true, Bool.false_eq_true,
          if_false, List.length_cons, Nat.add_one_ne_zero]
        refine ⟨h1, htr.1, by rw [h2, hin, htr.2], h4, fun _ => h5, ?_, ?_⟩
        · intro _ hd
          exact absurd (h6 hd) (by simp)
        · intro hnone datasets hop
          cases hop
          exact h7 hnone

theorem invocationsOf_eq {σ : Type} (t : Tableau σ) (op : Op) (delta : List Invocation)
    (h : (t.apply op).2.e.requested = t.e.requested ++ delta) :
    invocationsOf t op = delta := by
  simp [invocationsOf, h]

theorem apply_success_state {σ : Type} (t : Tableau σ) (op : Op)
    (h : (t.apply op).1.2 = none) :
    ((t.apply op).2.loggedIn = false ↔ op = Op.Logout) := by
  cases op with
  | Login server username password =>
    cases hin : t.loggedIn with
    | true =>
      simp [Tableau.apply, Tableau.Login, login_loggedIn t _ _ _ hin, ErrAlreadyLoggedIn] at h
    | false =>
      simp only [Tableau.apply, Tableau.Login, login_loggedOut t _ _ _ hin] at h ⊢
      simp [h]
  | LoginOnline username password =>
    cases hin : t.loggedIn with
    | true =>
      have hl := loginOnlineLoop_loggedIn username password ServerList t "" none hin
      rw [if_neg (by decide)] at hl
      simp [Tableau.apply, Tableau.LoginOnline, hl] at h
    | false =>
      have := loginOnlineLoop_nil_error username password ServerList t "" none hin
        (fun hnil => by simp [ServerList] at hnil) h
      simp only [Tableau.apply]
      simp [Tableau.LoginOnline, this]
  | Logout =>
    cases hin : t.loggedIn with
    | false => simp [Tableau.apply, Tableau.Logout, hin]
    | true =>
      cases herr : (t.e.step t.e.state "logout" []).1.2 with
      | none => simp [Tableau.apply, Tableau.Logout, hin, TabRunner.run, actLogout, herr]
      | some err =>
        simp [Tableau.apply, Tableau.Logout, hin, TabRunner.run, actLogout, herr] at h
  | RefreshExtracts datasets =>
    cases hin : t.loggedIn with
    | false => simp [Tableau.apply, Tableau.RefreshExtracts, hin, ErrNotLoggedIn] at h
    | true =>
      cases datasets with
      | nil => simp [Tableau.apply, Tableau.RefreshExtracts, hin, ErrEmptyDs] at h
      | cons ds rest =>
        obtain ⟨_, _, h2, _⟩ := refreshExtractsLoop_effect (ds :: rest) t ""
        simp [Tableau.apply, Tableau.RefreshExtracts, hin, h2]

theorem applyAll_effect {σ : Type} (ops : List Op) :
    ∀ t : Tableau σ, ∃ delta : List Invocation,
      (t.applyAll ops).e.requested = t.e.requested ++ delta ∧
      guarded t.loggedIn delta = true ∧
      (t.applyAll ops).loggedIn = traceLoggedIn t.loggedIn delta := by
  induction ops with
  | nil =>
    intro t
    exact ⟨[], by simp [Tableau.applyAll, guarded, traceLoggedIn]⟩
  | cons op rest ih =>
    intro t
    obtain ⟨d1, h1, h2, h3, _⟩ := apply_effect t op
    obtain ⟨d2, k1, k2, k3⟩ := ih (t.apply op).2
    refine ⟨d1 ++ d2, ?_, ?_, ?_⟩
    · simp [Tableau.applyAll, k1, h1]
    · rw [guarded_append, h2, ← h3, k2]
      rfl
    · rw [traceLoggedIn_append, ← h3]
      simpa [Tableau.applyAll] using k3

theorem guarded_split (trace : List Invocation) :
    ∀ s : Bool, guarded s trace = true →
      ∀ pre inv post, trace = pre ++ inv :: post →
        allowedIn (traceLoggedIn s pre) inv = true := by
  induction trace with
  | nil =>
    intro s _ pre inv post h
    cases pre <;> simp at h
  | cons x xs ih =>
    intro s hg pre inv post h
    simp only [guarded, Bool.and_eq_true] at hg
    cases pre with
    | nil =>
      simp only [List.nil_append, List.cons.injEq] at h
      rw [← h.1]
      exact hg.1
    | cons p ps =>
      simp only [List.cons_append, List.cons.injEq] at h
      rw [← h.1]
      exact ih _ hg.2 ps inv post h.2

theorem refreshExtractsLoop_output {σ : Type} (datasets : List String) :
    ∀ (t : Tableau σ) (buf : String),
      ∃ delta : List Invocation,
        (refreshExtractsLoop datasets t buf).2.e.requested = t.e.requested ++ delta ∧
        (refreshExtractsLoop datasets t buf).1.1 = buf ++ outputs delta := by
  induction datasets with
  | nil =>
    intro t buf
    exact ⟨[], by simp [refreshExtractsLoop, outputs]⟩
  | cons ds rest ih =>
    intro t buf
    cases herr : (t.e.step t.e.state "refreshextracts" ["--datasource", ds]).1.2 with
    | some err =>
      refine ⟨[⟨"refreshextracts", ["--datasource", ds],
        (t.e.step t.e.state "refreshextracts" ["--datasource", ds]).1.1, some err⟩], ?_⟩
      simp [refreshExtractsLoop, TabRunner.run, actRefreshExtracts, herr, outputs]
    | none =>
      obtain ⟨delta, h1, h2⟩ := ih
        { loggedIn := t.loggedIn, user := t.user, server := t.server,
          e := (t.e.run actRefreshExtracts ["--datasource", ds]).2 }
        (buf ++ (t.e.run actRefreshExtracts ["--datasource", ds]).1.1)
      simp only [TabRunner.run, actRefreshExtracts, herr] at h1 h2
      refine ⟨⟨"refreshextracts", ["--datasource", ds],
        (t.e.step t.e.state "refreshextracts" ["--datasource", ds]).1.1, none⟩ :: delta, ?_⟩
      simp only [refreshExtractsLoop, TabRunner.run, actRefreshExtracts, herr]
      exact ⟨by simp [h1], by simp [h2, outputs, String.append_assoc]⟩

theorem loginOnlineLoop_output {σ : Type} (username password : String) (srvs : List String) :
    ∀ (t : Tableau σ) (buf : String) (err0 : Option GoError),
      t.loggedIn = false →
      ∃ delta : List Invocation,
        (loginOnlineLoop username password srvs t buf err0).2.e.requested =
          t.e.requested ++ delta ∧
        (loginOnlineLoop username password srvs t buf err0).1.1 = buf ++ outputs delta ∧
        (∀ x ∈ delta.dropLast, x.err ≠ none) := by
  induction srvs with
  | nil =>
    intro t buf err0 _
    exact ⟨[], by simp [loginOnlineLoop, outputs]⟩
  | cons srv rest ih =>
    intro t buf err0 hout
    cases herr : (t.e.step t.e.state "login"
        ["-s", addHTTPS srv, "-u", username, "-p", password]).1.2 with
    | none =>
      refine ⟨[⟨"login", ["-s", addHTTPS srv, "-u", username, "-p", password],
        (t.e.step t.e.state "login"
          ["-s", addHTTPS srv, "-u", username, "-p", password]).1.1, none⟩], ?_⟩
      simp [loginOnlineLoop, login_loggedOut t srv username password hout, herr, outputs]
    | some err =>
      obtain ⟨delta, h1, h2, h3⟩ := ih (t.login srv username password).2
        (buf ++ (t.login srv username password).1.1) (some err)
        (by simp [login_loggedOut t srv username password hout, herr])
      simp only [login_loggedOut t srv username password hout, herr, Option.isNone_some]
        at h1 h2
      refine ⟨⟨"login", ["-s", addHTTPS srv, "-u", username, "-p", password],
        (t.e.step t.e.state "login"
          ["-s", addHTTPS srv, "-u", username, "-p", password]).1.1, some err⟩ :: delta, ?_⟩
      simp only [loginOnlineLoop, login_loggedOut t srv username password hout, herr,
        Option.isNone_some]
      refine ⟨by simp [h1], by simp [h2, outputs, String.append_assoc], ?_⟩
      intro x hx
      rcases delta with _ | ⟨d, dl⟩
      · simp at hx
      · rw [List.dropLast_cons₂] at hx
        rcases List.mem_cons.1 hx with hx | hx
        · rw [hx]
          simp
        · exact h3 x hx

theorem apply_output {σ : Type} (t : Tableau σ) (op : Op) :
    ∃ delta : List Invocation,
      (t.apply op).2.e.requested = t.e.requested ++ delta ∧
      (t.apply op).1.1 = outputs delta ∧
      (∀ username password, op = Op.LoginOnline username password →
        ∀ x ∈ delta.dropLast, x.err ≠ none) := by
  cases op with
  | Login server username password =>
    cases hin : t.loggedIn with
    | true =>
      exact ⟨[], by simp [Tableau.apply, Tableau.Login, login_loggedIn t _ _ _ hin, outputs]⟩
    | false =>
      exact ⟨[⟨"login", ["-s", addHTTPS server, "-u", username, "-p", password],
        (t.e.step t.e.state "login"
          ["-s", addHTTPS server, "-u", username, "-p", password]).1.1,
        (t.e.step t.e.state "login"
          ["-s", addHTTPS server, "-u", username, "-p", password]).1.2⟩],
        by simp [Tableau.apply, Tableau.Login, login_loggedOut t _ _ _ hin, outputs]⟩
  | LoginOnline username password =>
    cases hin : t.loggedIn with
    | true =>
      have hl := loginOnlineLoop_loggedIn username password ServerList t "" none hin
      rw [if_neg (by decide)] at hl
      exact ⟨[], by simp [Tableau.apply, Tableau.LoginOnline, hl, outputs]⟩
    | false =>
      obtain ⟨delta, h1, h2, h3⟩ :=
        loginOnlineLoop_output username password ServerList t "" none hin
      exact ⟨delta, h1, by simpa [Tableau.apply, Tableau.LoginOnline] using h2,
        fun _ _ _ => h3⟩
  | Logout =>
    cases hin : t.loggedIn with
    | false =>
      exact ⟨[], by simp [Tableau.apply, Tableau.Logout, hin, outputs]⟩
    | true =>
      refine ⟨[⟨"logout", [], (t.e.step t.e.state "logout" []).1.1,
        (t.e.step t.e.state "logout" []).1.2⟩], ?_⟩
      cases herr : (t.e.step t.e.state "logout" []).1.2 <;>
        simp [Tableau.apply, Tableau.Logout, hin, TabRunner.run, actLogout, outputs, herr]
  | RefreshExtracts datasets =>
    cases hin : t.loggedIn with
    | false =>
      exact ⟨[], by simp [Tableau.apply, Tableau.RefreshExtracts, hin, outputs]⟩
    | true =>
      cases datasets with
      | nil =>
        exact ⟨[], by simp [Tableau.apply, Tableau.RefreshExtracts, hin, outputs]⟩
      | cons ds rest =>
        obtain ⟨delta, h1, h2⟩ := refreshExtractsLoop_output (ds :: rest) t ""
        exact ⟨delta, by simpa [Tableau.apply, Tableau.RefreshExtracts, hin] using h1,
          by simpa [Tableau.apply, Tableau.RefreshExtracts, hin] using h2,
          fun _ _ hop => by cases hop⟩

theorem last_of_all_but_last_failed (delta : List Invocation) (x last : Invocation)
    (hfail : ∀ y ∈ delta.dropLast, y.err ≠ none) (hlast : delta.getLast? = some last)
    (hx : x ∈ delta) (hxe : x.err = none) : last.err = none := by
  have hsplit := List.dropLast_append_getLast? last hlast
  rw [← hsplit] at hx
  rcases List.mem_append.1 hx with hx | hx
  · exact absurd hxe (hfail x hx)
  · rw [List.mem_singleton] at hx
    rw [← hx]
    exact hxe

/-- Counterexample to C16 as stated: over a runner whose first invocation
fails and whose second succeeds, `LoginOnline` on a logged-out session makes
an invocation that returns an error and yet returns no error itself. -/
theorem LoginOnline_earlier_error_counterexample :
    (failFirstSession.LoginOnline "user" "pass").1.2 = none ∧
    (∃ inv ∈ invocationsOf failFirstSession (Op.LoginOnline "user" "pass"),
      inv.err ≠ none) ∧
    invocationsOf failFirstSession (Op.LoginOnline "user" "pass") =
      [⟨"login", ["-s", "https://dub01.online.tableau.com", "-u", "user", "-p", "pass"], "*",
          some (GoError.external "login error")⟩,
       ⟨"login", ["-s", "https://eu-west-1a.online.tableau.com", "-u", "user", "-p", "pass"],
          "*", none⟩] := by
  refine ⟨by decide, ⟨⟨"login",
    ["-s", "https://dub01.online.tableau.com", "-u", "user", "-p", "pass"], "*",
    some (GoError.external "login error")⟩, by decide, by decide⟩, by decide⟩

/-- C16 (amended): every operation only adds invocations to the trace, and
the text it returns is the concatenation of the outputs of all the invocations
made during it, failed ones included.  For `Login`, `Logout` and
`RefreshExtracts`, in every session state and for every runner, if an
invocation made during the operation returned an error then the operation
returns an error.  For every operation, `LoginOnline` included, the error
returned is the error of the last invocation made, whenever one was made.  In
`LoginOnline` every invocation before the last one has failed, and if some
invocation succeeded (a server accepted the login) then `LoginOnline` returns
no error and the session is logged in, whatever the earlier attempts returned.
An operation that returns no error and made no invocation is `Logout` on a
logged-out session; an operation that returns no error leaves the session
logged out exactly when it is `Logout`; and `RefreshExtracts` that returns no
error has made one invocation per dataset. -/
theorem errors_returned {σ : Type} (t : Tableau σ) (op : Op) :
    (t.apply op).2.e.requested = t.e.requested ++ invocationsOf t op ∧
    ((∀ username password, op ≠ Op.LoginOnline username password) →
      ∀ x ∈ invocationsOf t op, x.err ≠ none → (t.apply op).1.2 ≠ none) ∧
    (∀ last, (invocationsOf t op).getLast? = some last → (t.apply op).1.2 = last.err) ∧
    ((t.apply op).1.2 = none → invocationsOf t op = [] →
      op = Op.Logout ∧ t.loggedIn = false) ∧
    ((t.apply op).1.2 = none → ((t.apply op).2.loggedIn = false ↔ op = Op.Logout)) ∧
    ((t.apply op).1.2 = none → ∀ datasets, op = Op.RefreshExtracts datasets →
      (invocationsOf t op).length = datasets.length) ∧
    (t.apply op).1.1 = outputs (invocationsOf t op) ∧
    (∀ username password, op = Op.LoginOnline username password →
      (∀ x ∈ (invocationsOf t op).dropLast, x.err ≠ none) ∧
      ((∃ x ∈ invocationsOf t op, x.err = none) →
        (t.apply op).1.2 = none ∧ (t.apply op).2.loggedIn = true)) := by
  obtain ⟨delta, h1, _, _, h4, h5, h6, h7⟩ := apply_effect t op
  obtain ⟨delta2, k1, k2, k3⟩ := apply_output t op
  have hd : delta2 = delta :=
    (invocationsOf_eq t op delta2 k1).symm.trans (invocationsOf_eq t op delta h1)
  rw [hd] at k2 k3
  rw [invocationsOf_eq t op delta h1]
  refine ⟨h1, h5, h4, h6, apply_success_state t op, h7, k2, ?_⟩
  intro username password hop
  refine ⟨k3 username password hop, ?_⟩
  rintro ⟨x, hx, hxe⟩
  cases hlast : delta.getLast? with
  | none =>
    rw [List.getLast?_eq_none_iff] at hlast
    rw [hlast] at hx
    exact absurd hx (List.not_mem_nil _)
  | some last =>
    have hnone : (t.apply op).1.2 = none := by
      rw [h4 last hlast]
      exact last_of_all_but_last_failed delta x last (k3 username password hop) hlast hx hxe
    refine ⟨hnone, ?_⟩
    cases hl : (t.apply op).2.loggedIn with
    | true => rfl
    | false =>
      have := (apply_success_state t op hnone).1 hl
      rw [hop] at this
      cases this

/-- Witness for C16: the "2 datasets error" case of
`TestTableau_RefreshExtracts`, where the failing invocation makes the operation
fail; and `LoginOnline` over a runner whose first invocation fails and whose
second succeeds, which returns no error and logs in. -/
theorem errors_returned_witness :
    ((fakeSession true "" (some (GoError.external "error refreshing"))).apply
      (Op.RefreshExtracts ["dataset1", "dataset2"])).1.2 ≠ none ∧
    ((failFirstSession.apply (Op.LoginOnline "user" "pass")).1.2 = none ∧
      (failFirstSession.apply (Op.LoginOnline "user" "pass")).2.loggedIn = true) ∧
    (failFirstSession.apply (Op.LoginOnline "user" "pass")).1.1 = "**" :=
  ⟨(errors_returned (fakeSession true "" (some (GoError.external "error refreshing")))
    (Op.RefreshExtracts ["dataset1", "dataset2"])).2.1
    (fun _ _ h => Op.noConfusion h)
    ⟨"refreshextracts", ["--datasource", "dataset1"], "*",
      some (GoError.external "error refreshing")⟩
    (by decide) (by decide),
   ((errors_returned failFirstSession (Op.LoginOnline "user" "pass")).2.2.2.2.2.2.2
      "user" "pass" rfl).2
    ⟨⟨"login", ["-s", "https://eu-west-1a.online.tableau.com", "-u", "user", "-p", "pass"],
        "*", none⟩, by decide, rfl⟩,
   (errors_returned failFirstSession (Op.LoginOnline "user" "pass")).2.2.2.2.2.2.1⟩

/-- C17: for every sequence of operations applied to a session that starts
logged out and every runner, after every prefix of the sequence: the trace
only grew; every invocation in it was in order in the login state in which it
was made (a `login` invocation is never preceded by an open successful login,
a `logout` or `refreshextracts` invocation always is); and the session is
logged in exactly when the trace contains a successful `login` invocation with
no successful `logout` invocation after it. -/
theorem session_trace_invariant {σ : Type} (t0 : Tableau σ) (ops : List Op) (n : Nat)
    (h0 : t0.loggedIn = false) :
    (t0.applyAll (ops.take n)).e.requested =
      t0.e.requested ++ invocationsSince t0 (ops.take n) ∧
    guarded false (invocationsSince t0 (ops.take n)) = true ∧
    (∀ pre inv post, invocationsSince t0 (ops.take n) = pre ++ inv :: post →
      (inv.action = "login" → ¬ hasOpenLogin pre) ∧
      (inv.action = "logout" ∨ inv.action = "refreshextracts" → hasOpenLogin pre)) ∧
    (t0.applyAll (ops.take n)).loggedIn = traceLoggedIn false (invocationsSince t0 (ops.take n)) ∧
    ((t0.applyAll (ops.take n)).loggedIn = true ↔
      hasOpenLogin (invocationsSince t0 (ops.take n))) := by
  obtain ⟨delta, h1, h2, h3⟩ := applyAll_effect (ops.take n) t0
  have hd : invocationsSince t0 (ops.take n) = delta := by
    simp [invocationsSince, h1]
  rw [hd, h0] at *
  refine ⟨h1, h2, ?_, h3, ?_⟩
  · intro pre inv post hsplit
    have ha := guarded_split delta false h2 pre inv post hsplit
    rw [← traceLoggedIn_iff_hasOpenLogin]
    constructor
    · intro hact
      simpa [allowedIn, hact] using ha
    · intro hact
      have hne : inv.action ≠ "login" := by
        rcases hact with hact | hact <;> rw [hact] <;> decide
      simpa [allowedIn, hne, hact] using ha
  · rw [h3]
    exact traceLoggedIn_iff_hasOpenLogin delta

/-- Witness for C17: a fresh session over `fakeRunner` that logs in, refreshes a
dataset and logs out; after the first two operations it is logged in and the
trace holds an open successful login. -/
theorem session_trace_invariant_witness :
    (fakeSession false "" none).loggedIn = false ∧
    guarded false (invocationsSince (fakeSession false "" none)
      ([Op.Login "123" "user" "pass", Op.RefreshExtracts ["dataset1"], Op.Logout].take 2)) =
        true ∧
    (((fakeSession false "" none).applyAll
        ([Op.Login "123" "user" "pass", Op.RefreshExtracts ["dataset1"], Op.Logout].take 2)).loggedIn
        = true ↔
      hasOpenLogin (invocationsSince (fakeSession false "" none)
        ([Op.Login "123" "user" "pass", Op.RefreshExtracts ["dataset1"], Op.Logout].take 2))) :=
  ⟨rfl,
   (session_trace_invariant (fakeSession false "" none)
      [Op.Login "123" "user" "pass", Op.RefreshExtracts ["dataset1"], Op.Logout] 2 rfl).2.1,
   (session_trace_invariant (fakeSession false "" none)
      [Op.Login "123" "user" "pass", Op.RefreshExtracts ["dataset1"], Op.Logout] 2 rfl).2.2.2.2⟩

end Gotabcmd
